import Mathlib

/-
Verification of the Central Fuel Plan pipeline (src/main.py) against its
specification.  The Python program is shallowly embedded: DataFrames become
lists of rows over an untyped scalar type `Value`, pandas column operations
become total Lean functions, and fallible operations return `Except PyErr`.
Machine floats never undergo arithmetic in the program, so numeric cells are
carried opaquely as integers.
-/

/-- A calendar date, as produced by `datetime.strptime` (the time-of-day part
is always midnight for the formats used by the program, so it is omitted). -/
structure Date where
  year : Nat
  month : Nat
  day : Nat
deriving DecidableEq

/-- Gregorian leap-year test, as implemented by Python's `datetime`. -/
def isLeap (y : Nat) : Bool := decide (y % 4 = 0 ∧ (y % 100 ≠ 0 ∨ y % 400 = 0))

/-- Number of days in a month, as validated by Python's `datetime` constructor. -/
def daysInMonth (y m : Nat) : Nat :=
  if m = 2 then (if isLeap y then 29 else 28)
  else if m = 4 ∨ m = 6 ∨ m = 9 ∨ m = 11 then 30
  else 31

/-- Validity check performed by the `datetime(year, month, day)` constructor:
`MINYEAR = 1 ≤ year ≤ MAXYEAR = 9999`, months 1..12, days within the month. -/
def validDateB (y m d : Nat) : Bool :=
  decide (1 ≤ y ∧ y ≤ 9999 ∧ 1 ≤ m ∧ m ≤ 12 ∧ 1 ≤ d ∧ d ≤ daysInMonth y m)

/-- Strict lexicographic order on dates (pandas timestamp comparison). -/
def dateLtB (a b : Date) : Bool :=
  decide (a.year < b.year ∨ (a.year = b.year ∧
    (a.month < b.month ∨ (a.month = b.month ∧ a.day < b.day))))

/-- The decimal digit character for `k` (meaningful for `k ≤ 9`). -/
def dg (k : Nat) : Char := Char.ofNat (48 + k)

/-- Zero-padded two-digit rendering (strftime `%d`, `%m`, `%y`). -/
def pad2 (n : Nat) : List Char := [dg (n / 10), dg (n % 10)]

/-- Zero-padded four-digit rendering (strftime `%Y` for years 1000..9999). -/
def pad4 (n : Nat) : List Char :=
  [dg (n / 1000), dg (n / 100 % 10), dg (n / 10 % 10), dg (n % 10)]

/-- Numeric value of a digit string. -/
def digitsVal (l : List Char) : Nat := l.foldl (fun a c => 10 * a + (c.toNat - 48)) 0

/-- C-locale month abbreviations produced by strftime `%b`. -/
def monthAbbrev : Nat → List Char
  | 1 => ['J', 'a', 'n']
  | 2 => ['F', 'e', 'b']
  | 3 => ['M', 'a', 'r']
  | 4 => ['A', 'p', 'r']
  | 5 => ['M', 'a', 'y']
  | 6 => ['J', 'u', 'n']
  | 7 => ['J', 'u', 'l']
  | 8 => ['A', 'u', 'g']
  | 9 => ['S', 'e', 'p']
  | 10 => ['O', 'c', 't']
  | 11 => ['N', 'o', 'v']
  | 12 => ['D', 'e', 'c']
  | _ => []

/-- Case-insensitive lookup of a month abbreviation (strptime `%b` matches the
month names case-insensitively; the argument is already lowercased). -/
def monthFromAbbrev (l : List Char) : Option Nat :=
  if l = ['j', 'a', 'n'] then some 1
  else if l = ['f', 'e', 'b'] then some 2
  else if l = ['m', 'a', 'r'] then some 3
  else if l = ['a', 'p', 'r'] then some 4
  else if l = ['m', 'a', 'y'] then some 5
  else if l = ['j', 'u', 'n'] then some 6
  else if l = ['j', 'u', 'l'] then some 7
  else if l = ['a', 'u', 'g'] then some 8
  else if l = ['s', 'e', 'p'] then some 9
  else if l = ['o', 'c', 't'] then some 10
  else if l = ['n', 'o', 'v'] then some 11
  else if l = ['d', 'e', 'c'] then some 12
  else none

/-- Python `str.strip()`: drop leading and trailing whitespace. -/
def pyStrip (l : List Char) : List Char :=
  ((l.dropWhile (fun c => c.isWhitespace)).reverse.dropWhile
    (fun c => c.isWhitespace)).reverse

/-- The two-digit-year pivot used by strptime `%y`: 00..68 map to 2000..2068,
69..99 map to 1969..1999. -/
def y2map (v : Nat) : Nat := if v ≤ 68 then 2000 + v else 1900 + v

/-- Tokens of the strftime/strptime format strings used in `safe_parse_date`
(src/main.py lines 29-37).  A space in a format matches one or more
whitespace characters in strptime. -/
inductive Tok where
  | lit (c : Char)
  | ws
  | D
  | M
  | Y4
  | Y2
  | B
deriving DecidableEq

/-- Partial date assembled while matching strptime directives. -/
structure PD where
  py : Option Nat
  pm : Option Nat
  pdy : Option Nat
deriving DecidableEq

/-- One strptime attempt over a token list.  Numeric directives consume a
maximal digit run and range-check it, exactly as CPython's `_strptime` regex
behaves on the separator-delimited patterns used here (`%d`/`%m` accept one or
two digits, `%Y` exactly four, `%y` exactly two); `%b` consumes a maximal
alphabetic run and matches it case-insensitively; the whole input must be
consumed (strptime rejects unconverted trailing data). -/
def parseToks : List Tok → List Char → PD → Option PD
  | [], cs, st => if cs.isEmpty then some st else none
  | .lit c :: ts, cs, st =>
      match cs with
      | [] => none
      | c' :: rest => if c' = c then parseToks ts rest st else none
  | .ws :: ts, cs, st =>
      if (cs.takeWhile (fun c => c.isWhitespace)).isEmpty then none
      else parseToks ts (cs.dropWhile (fun c => c.isWhitespace)) st
  | .D :: ts, cs, st =>
      let ds := cs.takeWhile (fun c => c.isDigit)
      if ds.length = 1 ∨ ds.length = 2 then
        if 1 ≤ digitsVal ds ∧ digitsVal ds ≤ 31 then
          parseToks ts (cs.dropWhile (fun c => c.isDigit)) { st with pdy := some (digitsVal ds) }
        else none
      else none
  | .M :: ts, cs, st =>
      let ds := cs.takeWhile (fun c => c.isDigit)
      if ds.length = 1 ∨ ds.length = 2 then
        if 1 ≤ digitsVal ds ∧ digitsVal ds ≤ 12 then
          parseToks ts (cs.dropWhile (fun c => c.isDigit)) { st with pm := some (digitsVal ds) }
        else none
      else none
  | .Y4 :: ts, cs, st =>
      let ds := cs.takeWhile (fun c => c.isDigit)
      if ds.length = 4 then
        parseToks ts (cs.dropWhile (fun c => c.isDigit)) { st with py := some (digitsVal ds) }
      else none
  | .Y2 :: ts, cs, st =>
      let ds := cs.takeWhile (fun c => c.isDigit)
      if ds.length = 2 then
        parseToks ts (cs.dropWhile (fun c => c.isDigit)) { st with py := some (y2map (digitsVal ds)) }
      else none
  | .B :: ts, cs, st =>
      match monthFromAbbrev ((cs.takeWhile (fun c => c.isAlpha)).map Char.toLower) with
      | some m => parseToks ts (cs.dropWhile (fun c => c.isAlpha)) { st with pm := some m }
      | none => none

/-- The format patterns tried by `safe_parse_date`, in source order
(src/main.py lines 29-37): `%Y-%m-%d`, `%d/%m/%Y`, `%d-%m-%Y`, `%m/%d/%Y`,
`%d/%m/%y`, `%b %d %Y`, `%d %b %Y`. -/
inductive Fmt where
  | ymdDash
  | dmySlash
  | dmyDash
  | mdySlash
  | dmySlash2
  | bdY
  | dbY
deriving DecidableEq

/-- Directive decomposition of each format pattern. -/
def toks : Fmt → List Tok
  | .ymdDash => [.Y4, .lit '-', .M, .lit '-', .D]
  | .dmySlash => [.D, .lit '/', .M, .lit '/', .Y4]
  | .dmyDash => [.D, .lit '-', .M, .lit '-', .Y4]
  | .mdySlash => [.M, .lit '/', .D, .lit '/', .Y4]
  | .dmySlash2 => [.D, .lit '/', .M, .lit '/', .Y2]
  | .bdY => [.B, .ws, .D, .ws, .Y4]
  | .dbY => [.D, .ws, .B, .ws, .Y4]

/-- strftime rendering of a date in a given format (zero-padded fields,
C-locale month abbreviations). -/
def renderFmt : Fmt → Date → List Char
  | .ymdDash, d => pad4 d.year ++ '-' :: pad2 d.month ++ '-' :: pad2 d.day
  | .dmySlash, d => pad2 d.day ++ '/' :: pad2 d.month ++ '/' :: pad4 d.year
  | .dmyDash, d => pad2 d.day ++ '-' :: pad2 d.month ++ '-' :: pad4 d.year
  | .mdySlash, d => pad2 d.month ++ '/' :: pad2 d.day ++ '/' :: pad4 d.year
  | .dmySlash2, d => pad2 d.day ++ '/' :: pad2 d.month ++ '/' :: pad2 (d.year % 100)
  | .bdY, d => monthAbbrev d.month ++ ' ' :: pad2 d.day ++ ' ' :: pad4 d.year
  | .dbY, d => pad2 d.day ++ ' ' :: monthAbbrev d.month ++ ' ' :: pad4 d.year

/-- `datetime.strptime(s, fmt)` wrapped in try/except: directive matching
followed by the constructor's calendar validation. -/
def strptimeF (f : Fmt) (s : List Char) : Option Date :=
  match parseToks (toks f) s ⟨none, none, none⟩ with
  | none => none
  | some st =>
      let y := st.py.getD 1900
      let m := st.pm.getD 1
      let dy := st.pdy.getD 1
      if validDateB y m dy then some ⟨y, m, dy⟩ else none

/-- The ordered format list of `safe_parse_date` (src/main.py lines 29-37). -/
def formats : List Fmt :=
  [.ymdDash, .dmySlash, .dmyDash, .mdySlash, .dmySlash2, .bdY, .dbY]

/-- First format that parses wins (src/main.py lines 39-43). -/
def firstParse : List Fmt → List Char → Option Date
  | [], _ => none
  | f :: fs, s =>
      match strptimeF f s with
      | some d => some d
      | none => firstParse fs s

/-- The ambiguity side conditions under which a formatted date's round trip
through `safe_parse_date` is exact: an `%m/%d/%Y` string with day ≤ 12 and
day ≠ month reparses day-first under the earlier `%d/%m/%Y` pattern, and an
`%d/%m/%y` string carries only the two-digit-year window 1969..2068. -/
def fmtUnambiguous : Fmt → Date → Prop
  | .mdySlash, d => 12 < d.day ∨ d.day = d.month
  | .dmySlash2, d => 1969 ≤ d.year ∧ d.year ≤ 2068
  | _, _ => True

/-- An untyped spreadsheet cell: string, number, parsed date, or missing
(NaN/None/NaT).  Numbers are carried opaquely (no arithmetic is ever
performed on them in the program). -/
inductive Value where
  | str (s : String)
  | num (n : Int)
  | date (d : Date)
  | null
deriving DecidableEq

/-- `safe_parse_date` (src/main.py lines 20-45): reject non-strings, strip,
reject empty, then try the format list in order; `None` on total failure. -/
def safe_parse_date (v : Value) : Option Date :=
  match v with
  | .str s =>
      let t := pyStrip s.data
      if t.isEmpty then none else firstParse formats t
  | _ => none


/-- Exceptions surfaced by the embedded pandas operations.  `keyError none`
models indexing a frame with Python `None` (an unresolved column variable);
`keyError (some c)` models a missing column label; `attributeError` models a
`.dt` accessor applied to a non-datetime column. -/
inductive PyErr where
  | keyError (k : Option String)
  | attributeError
deriving DecidableEq

/-- Computations that may raise. -/
abbrev Py (α : Type) : Type := Except PyErr α

/-- A pandas DataFrame: a shared header list and one value list per row
(cells are addressed positionally through the header list; lookups use the
first occurrence of a label, which coincides with pandas for the unique
normalized headers the program selects). -/
structure DataFrame where
  cols : List String
  rows : List (List Value)
deriving DecidableEq

/-- Index of a column label (first occurrence). -/
def colIdx : List String → String → Option Nat
  | [], _ => none
  | c :: rest, x => if c = x then some 0 else (colIdx rest x).map (· + 1)

/-- `df[c]` for an optional column variable: Python `None` and missing labels
raise `KeyError`; otherwise the column's cells in row order (absent cells of
short rows read as missing).  Lookup is by first occurrence of the label;
pandas behaves differently when the label is duplicated (`df[c]` is then a
two-column frame and the pipeline raises), so theorems reading resolved
columns hypothesize that each resolved label occurs exactly once. -/
def getColE (df : DataFrame) (c : Option String) : Py (List Value) :=
  match c with
  | none => .error (.keyError none)
  | some c =>
      match colIdx df.cols c with
      | none => .error (.keyError (some c))
      | some i => .ok (df.rows.map (fun r => r.getD i Value.null))

/-- Replace cell `i` of a row by `f` of its current value. -/
def setAt (i : Nat) (f : Value → Value) (r : List Value) : List Value :=
  r.set i (f (r.getD i Value.null))

/-- `df[c] = g(df[c])` for a whole column (the read raises before the write
when the column variable is `None` or the label is absent).  As with
`getColE`, the first occurrence of the label is used, so theorems about
these writes hypothesize unique occurrence of the written label. -/
def normColE (df : DataFrame) (c : Option String) (f : Value → Value) : Py DataFrame :=
  match c with
  | none => .error (.keyError none)
  | some c =>
      match colIdx df.cols c with
      | none => .error (.keyError (some c))
      | some i => .ok ⟨df.cols, df.rows.map (setAt i f)⟩

/-- `df[mask]`: keep the rows whose mask entry is true. -/
def filterRows (df : DataFrame) (mask : List Bool) : DataFrame :=
  ⟨df.cols, ((df.rows.zip mask).filter (fun p => p.2)).map Prod.fst⟩

/-- `df[new] = vals`: append a fresh column. -/
def appendCol (df : DataFrame) (c : String) (vals : List Value) : DataFrame :=
  ⟨df.cols ++ [c], df.rows.zipWith (fun r v => r ++ [v]) vals⟩

/-- Resolve a list of (column variable, new name) pairs to (index, new name)
pairs, raising `KeyError` like pandas list-selection on the first failure. -/
def idxsOfE (df : DataFrame) : List (Option String × String) → Py (List (Nat × String))
  | [] => .ok []
  | (none, _) :: _ => .error (.keyError none)
  | (some c, nw) :: rest =>
      match colIdx df.cols c with
      | none => .error (.keyError (some c))
      | some i => (idxsOfE df rest).map (fun ps => (i, nw) :: ps)

/-- `df[[c₁, …]].copy().rename(...)`: select columns and give them new names
(src/main.py lines 124-130 and 228-230). -/
def selectRenameE (df : DataFrame) (l : List (Option String × String)) : Py DataFrame :=
  (idxsOfE df l).map (fun ps =>
    ⟨ps.map Prod.snd, df.rows.map (fun r => ps.map (fun p => r.getD p.1 Value.null))⟩)

/-- `_normalize_columns` on one header (src/main.py lines 73-82): strip, drop
every space/underscore/hyphen, lowercase. -/
def normalizeHeader (s : String) : String :=
  String.mk (((pyStrip s.data).filter
    (fun c => decide (c ≠ ' ' ∧ c ≠ '_' ∧ c ≠ '-'))).map Char.toLower)

/-- `_normalize_columns` (src/main.py lines 73-82). -/
def _normalize_columns (cols : List String) : List String := cols.map normalizeHeader

/-- `df.columns = _normalize_columns(df.columns)` (src/main.py line 91). -/
def dfNorm (df : DataFrame) : DataFrame := ⟨_normalize_columns df.cols, df.rows⟩

/-- Candidate alias lists (src/main.py lines 94-99). -/
def site_candidates : List String := ["b", "sitename", "site", "cowid", "name"]

def region_candidates : List String := ["d", "region", "cluster"]

def status_candidates : List String := ["j", "cowstatus", "status"]

def date_candidates : List String := ["aj", "nextfuelingplan", "nextfueldate"]

def lat_candidates : List String := ["l", "lat", "latitude"]

def lng_candidates : List String := ["m", "lng", "lon", "longitude"]

/-- `_pick_column` (src/main.py lines 85-86): the first header, in header
order, that belongs to the candidate list. -/
def _pick_column (df : DataFrame) (candidates : List String) : Option String :=
  df.cols.find? (fun c => decide (c ∈ candidates))

/-- String constants of the program. -/
def centralS : String := "central"

def onAirS : String := "ON-AIR"

def inProgressS : String := "IN PROGRESS"

def nanS : String := "nan"

def siteNameS : String := "SiteName"

def regionOutS : String := "Region"

def cowStatusS : String := "COWStatus"

def nextFuelingPlanS : String := "NextFuelingPlan"

def cityNameS : String := "CityName"

def latS : String := "lat"

def lngS : String := "lng"

/-- `Series.astype(str)` on one cell: strings unchanged, numbers printed,
missing values become the string `"nan"`, datetimes their ISO form. -/
def astypeStr (v : Value) : String :=
  match v with
  | .str s => s
  | .num n => toString n
  | .date d => String.mk (renderFmt .ymdDash d)
  | .null => nanS

/-- Python `str.strip()` on a Lean string. -/
def pyStripS (s : String) : String := String.mk (pyStrip s.data)

/-- Python `str.lower()` (ASCII case mapping, the program's domain). -/
def pyLowerS (s : String) : String := String.mk (s.data.map Char.toLower)

/-- Python `str.upper()` (ASCII case mapping, the program's domain). -/
def pyUpperS (s : String) : String := String.mk (s.data.map Char.toUpper)

/-- Cell transform of src/main.py line 109: `.astype(str).str.strip()`. -/
def normSite (v : Value) : Value := Value.str (pyStripS (astypeStr v))

/-- Cell transform of src/main.py line 110: `.astype(str).str.strip().str.lower()`. -/
def normRegion (v : Value) : Value := Value.str (pyLowerS (pyStripS (astypeStr v)))

/-- Cell transform of src/main.py line 111: `.astype(str).str.strip().str.upper()`. -/
def normStatus (v : Value) : Value := Value.str (pyUpperS (pyStripS (astypeStr v)))

/-- Sample cell-level instance of `pandas.to_datetime(·, errors="coerce")`,
used to evaluate the pipeline on concrete frames: datetimes pass through,
missing values stay missing, strings are tried as ISO, then month-first,
then day-first slash patterns; unparseable cells coerce to NaT
(`Value.null` here).  Pandas' real inference accepts more string shapes
and (since pandas 2.x) infers a format per column, so theorems about the
date filter quantify over the series-level parser (`clean_and_filterDT`)
instead of relying on this instance. -/
def pdToDatetime (v : Value) : Option Date :=
  match v with
  | .date d => some d
  | .str s =>
      let t := pyStrip s.data
      if t.isEmpty then none else firstParse [.ymdDash, .mdySlash, .dmySlash] t
  | _ => none

/-- Cell transform of src/main.py line 120: the coerced datetime column. -/
def coerceDate (v : Value) : Value :=
  match pdToDatetime v with
  | some d => Value.date d
  | none => Value.null

/-- Status membership test of src/main.py line 117:
`isin(["ON-AIR", "IN PROGRESS"])`. -/
def statusOk (v : Value) : Bool :=
  decide (v = Value.str onAirS ∨ v = Value.str inProgressS)

/-- `clean_and_filter` (src/main.py lines 89-138): normalize headers, resolve
the six roles, normalize the site/region/status columns, apply the region,
status and valid-date filters, project and rename to the canonical schema,
and append coordinate columns when both were resolved. -/
def clean_and_filter (df0 : DataFrame) : Py (DataFrame × Bool) := do
  let df : DataFrame := dfNorm df0
  let site_col := _pick_column df site_candidates
  let region_col := _pick_column df region_candidates
  let status_col := _pick_column df status_candidates
  let date_col := _pick_column df date_candidates
  let lat_col := _pick_column df lat_candidates
  let lng_col := _pick_column df lng_candidates
  let df ← normColE df site_col normSite
  let df ← normColE df region_col normRegion
  let df ← normColE df status_col normStatus
  let rvals ← getColE df region_col
  let df := filterRows df (rvals.map (fun v => decide (v = Value.str centralS)))
  let svals ← getColE df status_col
  let df := filterRows df (svals.map statusOk)
  let df ← normColE df date_col coerceDate
  let dvals ← getColE df date_col
  let df := filterRows df (dvals.map (fun v => decide (v ≠ Value.null)))
  let dfc ← selectRenameE df
    [(site_col, siteNameS), (region_col, regionOutS),
     (status_col, cowStatusS), (date_col, nextFuelingPlanS)]
  let has_coordinates := lat_col.isSome && lng_col.isSome
  if has_coordinates then
    let latv ← getColE df lat_col
    let lngv ← getColE df lng_col
    return (appendCol (appendCol dfc latS latv) lngS lngv, has_coordinates)
  else
    return (dfc, has_coordinates)

/-- `df[c] = pd.to_datetime(df[c], errors="coerce")` (src/main.py line 120)
with the series-level parser `toDT` a parameter: pandas' parser is external
library code, so the date-filter results below hold for every
length-preserving series parser producing datetimes or NaT.  The read
raises before the write when the column variable is `None` or the label is
absent; the parsed series is written back entrywise. -/
def toDatetimeColE (toDT : List Value → List Value) (df : DataFrame)
    (c : Option String) : Py DataFrame :=
  match c with
  | none => .error (.keyError none)
  | some c =>
      match colIdx df.cols c with
      | none => .error (.keyError (some c))
      | some i => .ok ⟨df.cols,
          List.zipWith (fun r v => r.set i v) df.rows
            (toDT (df.rows.map (fun r => r.getD i Value.null)))⟩

/-- `clean_and_filter` (src/main.py lines 89-138) with the
`pd.to_datetime(·, errors="coerce")` series parser of line 120 abstracted
as `toDT`; the concrete `clean_and_filter` is the instance at the
cell-level sample parser (`fun vs => vs.map coerceDate`), proved below. -/
def clean_and_filterDT (toDT : List Value → List Value) (df0 : DataFrame) :
    Py (DataFrame × Bool) := do
  let df : DataFrame := dfNorm df0
  let site_col := _pick_column df site_candidates
  let region_col := _pick_column df region_candidates
  let status_col := _pick_column df status_candidates
  let date_col := _pick_column df date_candidates
  let lat_col := _pick_column df lat_candidates
  let lng_col := _pick_column df lng_candidates
  let df ← normColE df site_col normSite
  let df ← normColE df region_col normRegion
  let df ← normColE df status_col normStatus
  let rvals ← getColE df region_col
  let df := filterRows df (rvals.map (fun v => decide (v = Value.str centralS)))
  let svals ← getColE df status_col
  let df := filterRows df (svals.map statusOk)
  let df ← toDatetimeColE toDT df date_col
  let dvals ← getColE df date_col
  let df := filterRows df (dvals.map (fun v => decide (v ≠ Value.null)))
  let dfc ← selectRenameE df
    [(site_col, siteNameS), (region_col, regionOutS),
     (status_col, cowStatusS), (date_col, nextFuelingPlanS)]
  let has_coordinates := lat_col.isSome && lng_col.isSome
  if has_coordinates then
    let latv ← getColE df lat_col
    let lngv ← getColE df lng_col
    return (appendCol (appendCol dfc latS latv) lngS lngv, has_coordinates)
  else
    return (dfc, has_coordinates)

/-- Environment of one `load_data` run: the outcome of the remote fetch
(`none` = network/parse failure) and the current contents of the cache file
at the configured cache path (`none` = no cache file exists). -/
structure LoadEnv where
  remote : Option DataFrame
  cache : Option DataFrame
deriving DecidableEq

/-- `load_data` (src/main.py lines 51-67), paired with the cache file contents
after the call (the function only ever reads the cache; no branch writes it).
On remote success the fetched table is returned; on failure, a missing cache
raises `FileNotFoundError`, otherwise the cached table is returned. -/
def load_data (env : LoadEnv) : Except String DataFrame × Option DataFrame :=
  match env.remote with
  | some t => (.ok t, env.cache)
  | none =>
      match env.cache with
      | none => (.error "FileNotFoundError", env.cache)
      | some t => (.ok t, env.cache)

/-- Elementwise `series == today` (src/main.py line 202): true only on a
datetime cell equal to today's midnight timestamp. -/
def valueDateEq (v : Value) (t : Date) : Bool := decide (v = Value.date t)

/-- Elementwise `series < today` (src/main.py line 203): false on NaT. -/
def valueDateLt (v : Value) (t : Date) : Bool :=
  match v with
  | .date d => dateLtB d t
  | _ => false

/-- Elementwise `series > today`: the complement class of future-dated rows,
which `generate_reports` writes to neither report. -/
def valueDateGt (v : Value) (t : Date) : Bool :=
  match v with
  | .date d => dateLtB t d
  | _ => false

/-- `generate_reports` (src/main.py lines 197-211): partition the canonical
frame into the due-today frame and the overdue frame using its
`NextFuelingPlan` column (the CSV writes are the returned frames). -/
def generate_reports (df : DataFrame) (today : Date) : Py (DataFrame × DataFrame) := do
  let vals ← getColE df (some nextFuelingPlanS)
  let df_today := filterRows df (vals.map (fun v => valueDateEq v today))
  let df_pending := filterRows df (vals.map (fun v => valueDateLt v today))
  return (df_today, df_pending)

/-- The rows of `df` whose cell in the parallel value list satisfies `q`
(specification-side characterization of a mask filter). -/
def rowsWith (df : DataFrame) (vals : List Value) (q : Value → Bool) : List (List Value) :=
  ((df.rows.zip vals).filter (fun p => q p.2)).map Prod.fst

/-- `generate_dashboard_data` (src/main.py lines 217-235): skip entirely
without coordinates; otherwise drop rows missing `lat` or `lng`, format the
date column as ISO strings, select and serialize the five dashboard fields.
The result is `none` when skipped, otherwise the list of JSON objects
written to `data.json` (field name/value pairs in order). -/
def generate_dashboard_data (df : DataFrame) (include_map : Bool) :
    Py (Option (List (List (String × Value)))) := do
  if !include_map then
    return none
  else
    let latv ← getColE df (some latS)
    let lngv ← getColE df (some lngS)
    let geo := filterRows df ((latv.zip lngv).map
      (fun p => decide (p.1 ≠ Value.null ∧ p.2 ≠ Value.null)))
    let dvals ← getColE geo (some nextFuelingPlanS)
    if dvals.all (fun v => match v with | .date _ => true | _ => false) then
      let geo ← normColE geo (some nextFuelingPlanS)
        (fun v => match v with
          | .date d => Value.str (String.mk (renderFmt .ymdDash d))
          | w => w)
      let sel ← selectRenameE geo
        [(some siteNameS, siteNameS), (some cityNameS, cityNameS),
         (some nextFuelingPlanS, nextFuelingPlanS),
         (some latS, latS), (some lngS, lngS)]
      return (some (sel.rows.map (fun r => sel.cols.zip r)))
    else
      .error .attributeError

/-- Projection of a fully-normalized row onto the canonical output schema
(site, region, status, date, and the coordinate cells when resolved). -/
def projRow (si ri sti di : Nat) (co : Option (Nat × Nat)) (r : List Value) : List Value :=
  [r.getD si Value.null, r.getD ri Value.null, r.getD sti Value.null, r.getD di Value.null] ++
    (match co with
     | some (li, ni) => [r.getD li Value.null, r.getD ni Value.null]
     | none => [])

/-- Per-row semantics of the `clean_and_filter` pipeline: normalize the three
label cells, test the region, status and valid-date predicates, and on
success emit the projected canonical row (plus coordinates when resolved).
`clean_and_filter`'s surviving rows are exactly the `some`-images of this
function (proved below). -/
def keepRow (si ri sti di : Nat) (co : Option (Nat × Nat)) (r : List Value) :
    Option (List Value) :=
  let r3 := setAt sti normStatus (setAt ri normRegion (setAt si normSite r))
  if decide (r3.getD ri Value.null = Value.str centralS) && statusOk (r3.getD sti Value.null) then
    let r4 := setAt di coerceDate r3
    if decide (r4.getD di Value.null ≠ Value.null) then some (projRow si ri sti di co r4)
    else none
  else none

/-- Index binding of a role: its picked header's position in the normalized
header list. -/
def pickIdx (df : DataFrame) (cands : List String) : Option Nat :=
  (_pick_column df cands).bind (colIdx df.cols)

/-- The coordinate column indices, when both were resolved. -/
def coordOf (df : DataFrame) : Option (Nat × Nat) :=
  match pickIdx df lat_candidates, pickIdx df lng_candidates with
  | some li, some ni => some (li, ni)
  | _, _ => none

/-- `has_coordinates` (src/main.py line 133). -/
def hasCoordsOf (df : DataFrame) : Bool :=
  (_pick_column df lat_candidates).isSome && (_pick_column df lng_candidates).isSome

/-- The output schema of `clean_and_filter`. -/
def outColsOf (co : Option (Nat × Nat)) : List String :=
  [siteNameS, regionOutS, cowStatusS, nextFuelingPlanS] ++
    (match co with
     | some _ => [latS, lngS]
     | none => [])

/-- Reference form of `clean_and_filter`: the role resolutions in usage order
(site line 109, region line 110, status line 111, date line 120) with their
failure modes, and on full resolution the output frame as a row-wise
`filterMap`.  Proved equal to `clean_and_filter` below. -/
def clean_ref (df0 : DataFrame) : Py (DataFrame × Bool) :=
  let df1 := dfNorm df0
  match _pick_column df1 site_candidates with
  | none => .error (.keyError none)
  | some s =>
      match colIdx df1.cols s with
      | none => .error (.keyError (some s))
      | some si =>
          match _pick_column df1 region_candidates with
          | none => .error (.keyError none)
          | some rg =>
              match colIdx df1.cols rg with
              | none => .error (.keyError (some rg))
              | some ri =>
                  match _pick_column df1 status_candidates with
                  | none => .error (.keyError none)
                  | some st =>
                      match colIdx df1.cols st with
                      | none => .error (.keyError (some st))
                      | some sti =>
                          match _pick_column df1 date_candidates with
                          | none => .error (.keyError none)
                          | some dt =>
                              match colIdx df1.cols dt with
                              | none => .error (.keyError (some dt))
                              | some di =>
                                  .ok (⟨outColsOf (coordOf df1),
                                    df0.rows.filterMap
                                      (keepRow si ri sti di (coordOf df1))⟩,
                                    hasCoordsOf df1)

/-- Control outcome of the `clean_and_filter` body, viewed as Python executes
it: segment A (lines 90-138) either raises or hits the unconditional
`return` on line 138; `fellThrough` is the (never realized) possibility of
control reaching line 141. -/
inductive CAFOutcome where
  | raised (e : PyErr)
  | returned (out : DataFrame × Bool)
  | fellThrough (df : DataFrame)
deriving DecidableEq

/-- Outcome of segment A (src/main.py lines 90-138).  The segment's last
statement is the unconditional `return` on line 138, so its execution either
raises or returns. -/
def clean_and_filter_O (df0 : DataFrame) : CAFOutcome :=
  match clean_and_filter df0 with
  | .error e => .raised e
  | .ok out => .returned out

/-- The whole function body (lines 90-191) under an arbitrary semantics
`tail` for the trailing statements (lines 141-191): `tail` runs only if
segment A's control falls through past the `return`.  The `Nat` component
counts `safe_parse_date` invocations (line 145 sits inside the tail; segment
A performs none). -/
def clean_and_filter_with_tail (tail : DataFrame → CAFOutcome × Nat)
    (df0 : DataFrame) : CAFOutcome × Nat :=
  match clean_and_filter_O df0 with
  | .fellThrough df => tail df
  | r => (r, 0)

/-- The cell of row `r` under the column label `c` of frame `df`. -/
def cellVal (df : DataFrame) (c : String) (r : List Value) : Option Value :=
  (colIdx df.cols c).map (fun i => r.getD i Value.null)

/-- Whether a cell holds a parsed datetime. -/
def isDateV (v : Value) : Bool :=
  match v with
  | .date _ => true
  | _ => false

/-- A minimal already-resolving input frame whose single row passes every
filter and carries coordinates. -/
def sampleInput : DataFrame :=
  ⟨["sitename", "region", "cowstatus", "nextfuelingplan", "lat", "lng"],
   [[Value.str ("S1"), Value.str ("central"), Value.str ("ON-AIR"),
     Value.str ("2025-03-15"), Value.num 24, Value.num 46]]⟩

/-- The canonical frame `clean_and_filter` produces from `sampleInput`. -/
def sampleOutput : DataFrame :=
  ⟨[siteNameS, regionOutS, cowStatusS, nextFuelingPlanS, latS, lngS],
   [[Value.str ("S1"), Value.str ("central"), Value.str ("ON-AIR"),
     Value.date ⟨2025, 3, 15⟩, Value.num 24, Value.num 46]]⟩

theorem getD_set_ne (l : List Value) : ∀ (i j : Nat) (v d : Value), i ≠ j →
    (l.set i v).getD j d = l.getD j d := by
  induction l with
  | nil => intro i j v d _; rfl
  | cons a as ih =>
    intro i j v d h
    cases i with
    | zero =>
        cases j with
        | zero => exact absurd rfl h
        | succ j' => rfl
    | succ i' =>
        cases j with
        | zero => rfl
        | succ j' =>
            have : (a :: as).set (i' + 1) v = a :: as.set i' v := rfl
            rw [this]
            show (as.set i' v).getD j' d = as.getD j' d
            exact ih i' j' v d (by omega)

theorem getD_set_self (l : List Value) : ∀ (i : Nat) (v d : Value), i < l.length →
    (l.set i v).getD i d = v := by
  induction l with
  | nil => intro i v d h; simp at h
  | cons a as ih =>
    intro i v d h
    cases i with
    | zero => rfl
    | succ i' =>
        show (as.set i' v).getD i' d = v
        exact ih i' v d (by simpa using h)

theorem getD_long (l : List Value) : ∀ (i : Nat) (d : Value), l.length ≤ i → l.getD i d = d := by
  induction l with
  | nil => intro i d _; cases i <;> rfl
  | cons a as ih =>
    intro i d h
    cases i with
    | zero => simp at h
    | succ i' => exact ih i' d (by simpa using h)

theorem setAt_length (i : Nat) (f : Value → Value) (r : List Value) :
    (setAt i f r).length = r.length := by
  simp [setAt]

theorem getD_setAt_ne (i j : Nat) (f : Value → Value) (r : List Value) (h : i ≠ j) :
    (setAt i f r).getD j Value.null = r.getD j Value.null := by
  show (r.set i (f (r.getD i Value.null))).getD j Value.null = r.getD j Value.null
  exact getD_set_ne r i j _ _ h

theorem getD_setAt_self (i : Nat) (f : Value → Value) (r : List Value) (h : i < r.length) :
    (setAt i f r).getD i Value.null = f (r.getD i Value.null) := by
  show (r.set i (f (r.getD i Value.null))).getD i Value.null = f (r.getD i Value.null)
  exact getD_set_self r i _ _ h

theorem getD_setAt_long (i : Nat) (f : Value → Value) (r : List Value) (h : r.length ≤ i) :
    (setAt i f r).getD i Value.null = Value.null := by
  have : (setAt i f r).length ≤ i := by rw [setAt_length]; exact h
  exact getD_long _ i _ this

theorem zip_map_self_filter (g : List Value → Bool) : ∀ l : List (List Value),
    ((l.zip (l.map g)).filter (fun p => p.2)).map Prod.fst = l.filter g := by
  intro l
  induction l with
  | nil => rfl
  | cons x xs ih => by_cases h : g x <;> simp [List.filter_cons, h, ih]

theorem filterRows_map_mask (df : DataFrame) (g : List Value → Bool) :
    filterRows df (df.rows.map g) = ⟨df.cols, df.rows.filter g⟩ := by
  simp [filterRows, zip_map_self_filter]

theorem zip_map_snd_filter : ∀ (A : List (List Value)) (B : List Value) (q : Value → Bool),
    ((A.zip (B.map q)).filter (fun p => p.2)).map Prod.fst =
      ((A.zip B).filter (fun p => q p.2)).map Prod.fst := by
  intro A
  induction A with
  | nil => intro B q; rfl
  | cons a as ih =>
      intro B q
      cases B with
      | nil => rfl
      | cons b bs => by_cases h : q b <;> simp [List.filter_cons, h, ih]

theorem zipWith_map_same {α β γ δ : Type} (f : β → γ → δ) (g : α → β) (h : α → γ)
    (l : List α) : List.zipWith f (l.map g) (l.map h) = l.map (fun x => f (g x) (h x)) := by
  induction l with
  | nil => rfl
  | cons x xs ih => simp [ih]

theorem colIdx_of_mem : ∀ (cols : List String) (c : String), c ∈ cols →
    ∃ i, colIdx cols c = some i := by
  intro cols
  induction cols with
  | nil => intro c h; exact absurd h (List.not_mem_nil c)
  | cons a as ih =>
      intro c h
      by_cases hac : a = c
      · exact ⟨0, by simp [colIdx, hac]⟩
      · have hmem : c ∈ as := by
          rcases List.mem_cons.mp h with h' | h'
          · exact absurd h'.symm hac
          · exact h'
        obtain ⟨i, hi⟩ := ih c hmem
        exact ⟨i + 1, by simp [colIdx, hac, hi]⟩

theorem colIdx_get : ∀ (cols : List String) (c : String) (i : Nat),
    colIdx cols c = some i → ∃ h : i < cols.length, cols.get ⟨i, h⟩ = c := by
  intro cols
  induction cols with
  | nil => intro c i h; simp [colIdx] at h
  | cons a as ih =>
      intro c i h
      by_cases hac : a = c
      · simp [colIdx, hac] at h
        have hi0 : i = 0 := by omega
        subst hi0
        exact ⟨by simp, hac⟩
      · simp [colIdx, hac] at h
        obtain ⟨i', hi', rfl⟩ := h
        obtain ⟨hlt, hget⟩ := ih c i' hi'
        exact ⟨by simpa using Nat.succ_lt_succ hlt, by simpa using hget⟩

theorem colIdx_names_inj (cols : List String) (c₁ c₂ : String) (i : Nat)
    (h₁ : colIdx cols c₁ = some i) (h₂ : colIdx cols c₂ = some i) : c₁ = c₂ := by
  obtain ⟨hl₁, hg₁⟩ := colIdx_get cols c₁ i h₁
  obtain ⟨hl₂, hg₂⟩ := colIdx_get cols c₂ i h₂
  rw [← hg₁, ← hg₂]

theorem pick_mem_cols {df : DataFrame} {cands : List String} {c : String}
    (h : _pick_column df cands = some c) : c ∈ df.cols := by
  have h' : df.cols.find? (fun x => decide (x ∈ cands)) = some c := h
  exact List.mem_of_find?_eq_some h'

theorem pick_mem_cands {df : DataFrame} {cands : List String} {c : String}
    (h : _pick_column df cands = some c) : c ∈ cands := by
  have h' : df.cols.find? (fun x => decide (x ∈ cands)) = some c := h
  have := List.find?_some h'
  exact of_decide_eq_true (by simpa using this)

theorem site_region_disj : ∀ a ∈ site_candidates, ∀ b ∈ region_candidates, a ≠ b := by decide

theorem site_status_disj : ∀ a ∈ site_candidates, ∀ b ∈ status_candidates, a ≠ b := by decide

theorem site_date_disj : ∀ a ∈ site_candidates, ∀ b ∈ date_candidates, a ≠ b := by decide

theorem region_status_disj : ∀ a ∈ region_candidates, ∀ b ∈ status_candidates, a ≠ b := by
  decide

theorem region_date_disj : ∀ a ∈ region_candidates, ∀ b ∈ date_candidates, a ≠ b := by decide

theorem status_date_disj : ∀ a ∈ status_candidates, ∀ b ∈ date_candidates, a ≠ b := by decide

theorem chain_eq_filterMap (si ri sti di : Nat) (co : Option (Nat × Nat)) :
    ∀ rows : List (List Value),
    (((((((rows.map (setAt si normSite)).map (setAt ri normRegion)).map
        (setAt sti normStatus)).filter
        (fun r => decide (r.getD ri Value.null = Value.str centralS))).filter
        (fun r => statusOk (r.getD sti Value.null))).map
        (setAt di coerceDate)).filter
        (fun r => decide (r.getD di Value.null ≠ Value.null))).map
        (projRow si ri sti di co)
      = rows.filterMap (keepRow si ri sti di co) := by
  intro rows
  induction rows with
  | nil => rfl
  | cons r rest ih =>
      by_cases hp1 : (setAt sti normStatus (setAt ri normRegion
          (setAt si normSite r)))[ri]?.getD Value.null = Value.str centralS
      · by_cases hp2 : statusOk ((setAt sti normStatus (setAt ri normRegion
            (setAt si normSite r)))[sti]?.getD Value.null) = true
        · by_cases hp3 : (setAt di coerceDate (setAt sti normStatus
              (setAt ri normRegion (setAt si normSite r))))[di]?.getD Value.null
              = Value.null
          · simpa [keepRow, hp1, hp2, hp3] using ih
          · simpa [keepRow, hp1, hp2, hp3] using ih
        · simpa [keepRow, hp1, hp2] using ih
      · simpa [keepRow, hp1] using ih

theorem except_bind_ok {ε α β : Type} (a : α) (f : α → Except ε β) :
    (Except.ok a >>= f) = f a := rfl

theorem except_bind_err {ε α β : Type} (e : ε) (f : α → Except ε β) :
    ((Except.error e : Except ε α) >>= f) = Except.error e := rfl

theorem except_pure {ε α : Type} (a : α) : (pure a : Except ε α) = Except.ok a := rfl

theorem filter_zip_maps {γ α : Type} (F : γ → α) (G : γ → Bool) (P : α × Bool → Bool) :
    ∀ R : List γ,
    ((R.map F).zip (R.map G)).filter P =
      (R.filter (fun x => P (F x, G x))).map (fun x => (F x, G x)) := by
  intro R
  induction R with
  | nil => rfl
  | cons x xs ih => by_cases h : P (F x, G x) <;> simp [List.filter_cons, h, ih]

theorem except_map_ok {ε α β : Type} (f : α → β) (a : α) :
    Except.map f (Except.ok a : Except ε α) = Except.ok (f a) := rfl

theorem except_map_err {ε α β : Type} (f : α → β) (e : ε) :
    Except.map f (Except.error e : Except ε α) = Except.error e := rfl

theorem clean_eq_ref (df0 : DataFrame) : clean_and_filter df0 = clean_ref df0 := by
  cases hs : _pick_column (dfNorm df0) site_candidates with
  | none =>
      simp [clean_and_filter, clean_ref, hs, normColE, except_bind_err, except_bind_ok]
  | some s =>
      obtain ⟨si, hsi⟩ := colIdx_of_mem _ s (pick_mem_cols hs)
      cases hr : _pick_column (dfNorm df0) region_candidates with
      | none =>
          simp [clean_and_filter, clean_ref, hs, hsi, hr, normColE,
            except_bind_err, except_bind_ok]
      | some rg =>
          obtain ⟨ri, hri⟩ := colIdx_of_mem _ rg (pick_mem_cols hr)
          cases hst : _pick_column (dfNorm df0) status_candidates with
          | none =>
              simp [clean_and_filter, clean_ref, hs, hsi, hr, hri, hst, normColE,
                except_bind_err, except_bind_ok]
          | some st =>
              obtain ⟨sti, hsti⟩ := colIdx_of_mem _ st (pick_mem_cols hst)
              cases hdt : _pick_column (dfNorm df0) date_candidates with
              | none =>
                  simp [clean_and_filter, clean_ref, hs, hsi, hr, hri, hst, hsti, hdt,
                    normColE, getColE, except_bind_err, except_bind_ok, filterRows,
                    zip_map_self_filter]
              | some dt =>
                  obtain ⟨di, hdi⟩ := colIdx_of_mem _ dt (pick_mem_cols hdt)
                  cases hla : _pick_column (dfNorm df0) lat_candidates with
                  | none =>
                      have hchain := chain_eq_filterMap si ri sti di none df0.rows
                      simp [clean_and_filter, clean_ref, hs, hsi, hr, hri, hst, hsti,
                        hdt, hdi, hla, normColE, getColE, except_bind_err,
                        except_bind_ok, except_pure, except_map_ok, except_map_err,
                        filterRows, filter_zip_maps, List.filter_map, Function.comp_def, Bool.and_assoc,
                        idxsOfE, selectRenameE, appendCol, zipWith_map_same, coordOf,
                        pickIdx, hasCoordsOf, outColsOf, projRow] at hchain ⊢
                      exact hchain
                  | some la =>
                      obtain ⟨li, hli⟩ := colIdx_of_mem _ la (pick_mem_cols hla)
                      cases hln : _pick_column (dfNorm df0) lng_candidates with
                      | none =>
                          have hchain := chain_eq_filterMap si ri sti di none df0.rows
                          simp [clean_and_filter, clean_ref, hs, hsi, hr, hri, hst,
                            hsti, hdt, hdi, hla, hli, hln, normColE, getColE,
                            except_bind_err, except_bind_ok, except_pure, except_map_ok,
                            except_map_err, filterRows, filter_zip_maps, List.filter_map, Bool.and_assoc,
                            Function.comp_def, idxsOfE, selectRenameE, appendCol,
                            zipWith_map_same, coordOf, pickIdx, hasCoordsOf, outColsOf,
                            projRow] at hchain ⊢
                          exact hchain
                      | some ln =>
                          obtain ⟨ni, hni⟩ := colIdx_of_mem _ ln (pick_mem_cols hln)
                          have hchain := chain_eq_filterMap si ri sti di
                            (some (li, ni)) df0.rows
                          simp [clean_and_filter, clean_ref, hs, hsi, hr, hri, hst,
                            hsti, hdt, hdi, hla, hli, hln, hni, normColE, getColE,
                            except_bind_err, except_bind_ok, except_pure, except_map_ok,
                            except_map_err, filterRows, filter_zip_maps, List.filter_map, Bool.and_assoc,
                            Function.comp_def, idxsOfE, selectRenameE, appendCol,
                            zipWith_map_same, coordOf, pickIdx, hasCoordsOf, outColsOf,
                            projRow] at hchain ⊢
                          exact hchain

theorem keepRow_isSome_eq (si ri sti di : Nat) (co : Option (Nat × Nat)) (r : List Value) :
    (keepRow si ri sti di co r).isSome =
      (decide ((setAt sti normStatus (setAt ri normRegion (setAt si normSite r))).getD ri
          Value.null = Value.str centralS) &&
       statusOk ((setAt sti normStatus (setAt ri normRegion (setAt si normSite r))).getD sti
          Value.null) &&
       decide ((setAt di coerceDate (setAt sti normStatus (setAt ri normRegion
          (setAt si normSite r)))).getD di Value.null ≠ Value.null)) := by
  by_cases hp1 : (setAt sti normStatus (setAt ri normRegion
      (setAt si normSite r)))[ri]?.getD Value.null = Value.str centralS
  · by_cases hp2 : statusOk ((setAt sti normStatus (setAt ri normRegion
        (setAt si normSite r)))[sti]?.getD Value.null) = true
    · by_cases hp3 : (setAt di coerceDate (setAt sti normStatus (setAt ri normRegion
          (setAt si normSite r))))[di]?.getD Value.null = Value.null
      · simp [keepRow, hp1, hp2, hp3]
      · simp [keepRow, hp1, hp2, hp3]
    · simp [keepRow, hp1, hp2]
  · simp [keepRow, hp1]

theorem norm_cell_reads (si ri sti di : Nat) (r : List Value)
    (hsr : si ≠ ri) (hss : si ≠ sti) (hrs : ri ≠ sti)
    (hsd : si ≠ di) (hrd : ri ≠ di) (hstd : sti ≠ di) :
    ((setAt sti normStatus (setAt ri normRegion (setAt si normSite r))).getD ri Value.null =
      (if ri < r.length then normRegion (r.getD ri Value.null) else Value.null)) ∧
    ((setAt sti normStatus (setAt ri normRegion (setAt si normSite r))).getD sti Value.null =
      (if sti < r.length then normStatus (r.getD sti Value.null) else Value.null)) ∧
    ((setAt di coerceDate (setAt sti normStatus (setAt ri normRegion
        (setAt si normSite r)))).getD di Value.null =
      (if di < r.length then coerceDate (r.getD di Value.null) else Value.null)) := by
  refine ⟨?_, ?_, ?_⟩
  · rw [getD_setAt_ne sti ri _ _ hrs.symm]
    by_cases hl : ri < r.length
    · rw [getD_setAt_self ri _ _ (by rw [setAt_length]; exact hl),
        getD_setAt_ne si ri _ _ hsr, if_pos hl]
    · rw [getD_setAt_long ri _ _ (by rw [setAt_length]; omega), if_neg hl]
  · by_cases hl : sti < r.length
    · rw [getD_setAt_self sti _ _ (by rw [setAt_length, setAt_length]; exact hl),
        getD_setAt_ne ri sti _ _ hrs, getD_setAt_ne si sti _ _ hss, if_pos hl]
    · rw [getD_setAt_long sti _ _ (by rw [setAt_length, setAt_length]; omega), if_neg hl]
  · by_cases hl : di < r.length
    · rw [getD_setAt_self di _ _ (by rw [setAt_length, setAt_length, setAt_length]; exact hl),
        getD_setAt_ne sti di _ _ hstd, getD_setAt_ne ri di _ _ hrd,
        getD_setAt_ne si di _ _ hsd, if_pos hl]
    · rw [getD_setAt_long di _ _
        (by rw [setAt_length, setAt_length, setAt_length]; omega), if_neg hl]

theorem keepRow_isSome_iff (si ri sti di : Nat) (co : Option (Nat × Nat)) (r : List Value)
    (hsr : si ≠ ri) (hss : si ≠ sti) (hrs : ri ≠ sti)
    (hsd : si ≠ di) (hrd : ri ≠ di) (hstd : sti ≠ di) :
    (keepRow si ri sti di co r).isSome = true ↔
      (pyLowerS (pyStripS (astypeStr (r.getD ri Value.null))) = centralS ∧
       (pyUpperS (pyStripS (astypeStr (r.getD sti Value.null))) = onAirS ∨
        pyUpperS (pyStripS (astypeStr (r.getD sti Value.null))) = inProgressS) ∧
       (pdToDatetime (r.getD di Value.null)).isSome = true) := by
  obtain ⟨e1, e2, e3⟩ := norm_cell_reads si ri sti di r hsr hss hrs hsd hrd hstd
  rw [keepRow_isSome_eq, e1, e2, e3]
  have c1 : (decide ((if ri < r.length then normRegion (r.getD ri Value.null)
      else Value.null) = Value.str centralS) = true) ↔
      pyLowerS (pyStripS (astypeStr (r.getD ri Value.null))) = centralS := by
    by_cases hl : ri < r.length
    · simp [hl, normRegion]
    · rw [if_neg hl, getD_long r ri _ (by omega)]
      simp only [decide_eq_true_eq]
      constructor
      · intro h; exact absurd h (by decide)
      · intro h; exact absurd h (by decide)
  have c2 : (statusOk (if sti < r.length then normStatus (r.getD sti Value.null)
      else Value.null) = true) ↔
      (pyUpperS (pyStripS (astypeStr (r.getD sti Value.null))) = onAirS ∨
       pyUpperS (pyStripS (astypeStr (r.getD sti Value.null))) = inProgressS) := by
    by_cases hl : sti < r.length
    · simp [hl, normStatus, statusOk]
    · rw [if_neg hl, getD_long r sti _ (by omega)]
      simp only [statusOk]
      constructor
      · intro h; exact absurd (of_decide_eq_true h) (by decide)
      · intro h; exact absurd h (by decide)
  have c3 : (decide ((if di < r.length then coerceDate (r.getD di Value.null)
      else Value.null) ≠ Value.null) = true) ↔
      (pdToDatetime (r.getD di Value.null)).isSome = true := by
    by_cases hl : di < r.length
    · rw [if_pos hl]
      simp only [coerceDate, decide_eq_true_eq]
      cases pdToDatetime (r.getD di Value.null) <;> simp
    · rw [if_neg hl, getD_long r di _ (by omega)]
      simp [pdToDatetime]
  simp only [Bool.and_eq_true]
  rw [c1, c2, c3]
  tauto

theorem resolved_idx_ne (cols : List String) (s rg st dt : String) (si ri sti di : Nat)
    (hsc : s ∈ site_candidates) (hrc : rg ∈ region_candidates)
    (hstc : st ∈ status_candidates) (hdtc : dt ∈ date_candidates)
    (hsi : colIdx cols s = some si) (hri : colIdx cols rg = some ri)
    (hsti : colIdx cols st = some sti) (hdi : colIdx cols dt = some di) :
    si ≠ ri ∧ si ≠ sti ∧ ri ≠ sti ∧ si ≠ di ∧ ri ≠ di ∧ sti ≠ di := by
  refine ⟨fun e => ?_, fun e => ?_, fun e => ?_, fun e => ?_, fun e => ?_, fun e => ?_⟩
  · exact site_region_disj s hsc rg hrc
      (colIdx_names_inj cols s rg si hsi (by rw [e]; exact hri))
  · exact site_status_disj s hsc st hstc
      (colIdx_names_inj cols s st si hsi (by rw [e]; exact hsti))
  · exact region_status_disj rg hrc st hstc
      (colIdx_names_inj cols rg st ri hri (by rw [e]; exact hsti))
  · exact site_date_disj s hsc dt hdtc
      (colIdx_names_inj cols s dt si hsi (by rw [e]; exact hdi))
  · exact region_date_disj rg hrc dt hdtc
      (colIdx_names_inj cols rg dt ri hri (by rw [e]; exact hdi))
  · exact status_date_disj st hstc dt hdtc
      (colIdx_names_inj cols st dt sti hsti (by rw [e]; exact hdi))

theorem zipWith_with_map_self {α β γ : Type} (f : α → β → γ) (g : α → β) :
    ∀ l : List α, List.zipWith f l (l.map g) = l.map (fun x => f x (g x)) := by
  intro l
  induction l with
  | nil => rfl
  | cons x xs ih => simp [ih]

theorem dfNorm_rows (df : DataFrame) : (dfNorm df).rows = df.rows := rfl

theorem map_filter_zip_self {α : Type} (g : List Value → Bool) (F : List Value × Bool → α) :
    ∀ l : List (List Value),
    ((l.zip (l.map g)).filter (fun p => p.2)).map F =
      (l.filter g).map (fun x => F (x, g x)) := by
  intro l
  induction l with
  | nil => rfl
  | cons x xs ih => by_cases h : g x <;> simp [List.filter_cons, h, ih]

theorem projRow_elim (si ri sti di : Nat) (co : Option (Nat × Nat)) :
    projRow si ri sti di co = fun r =>
      [r.getD si Value.null, r.getD ri Value.null,
       r.getD sti Value.null, r.getD di Value.null] ++
        (match co with
         | some (li, ni) => [r.getD li Value.null, r.getD ni Value.null]
         | none => []) := rfl

theorem toDatetimeColE_coerce (df : DataFrame) (c : Option String) :
    toDatetimeColE (fun vs => vs.map coerceDate) df c = normColE df c coerceDate := by
  cases c with
  | none => rfl
  | some c =>
      cases h : colIdx df.cols c with
      | none => simp [toDatetimeColE, normColE, h]
      | some i =>
          simp [toDatetimeColE, normColE, h, List.map_map, zipWith_with_map_self,
            Function.comp_def, setAt]

theorem clean_and_filterDT_coerce (df0 : DataFrame) :
    clean_and_filterDT (fun vs => vs.map coerceDate) df0 = clean_and_filter df0 := by
  simp only [clean_and_filterDT, clean_and_filter, toDatetimeColE_coerce]

theorem colIdx_lt (cols : List String) (c : String) (i : Nat)
    (h : colIdx cols c = some i) : i < cols.length := by
  obtain ⟨hl, _⟩ := colIdx_get cols c i h
  exact hl

theorem filter_of_map {α β : Type} (f : α → β) (p : β → Bool) (q : α → Bool)
    (hpq : ∀ x, p (f x) = q x) :
    ∀ l : List α, (l.map f).filter p = (l.filter q).map f := by
  intro l
  induction l with
  | nil => rfl
  | cons x xs ih =>
      by_cases hx : q x
      · simp [List.filter_cons, hpq, hx, ih]
      · simp [List.filter_cons, hpq, hx, ih]

theorem region_pred_raw (si ri sti di : Nat) (hsr : si ≠ ri) (hss : si ≠ sti)
    (hrs : ri ≠ sti) (hsd : si ≠ di) (hrd : ri ≠ di) (hstd : sti ≠ di) (r : List Value) :
    decide ((setAt sti normStatus (setAt ri normRegion (setAt si normSite r))).getD ri
        Value.null = Value.str centralS) =
      decide (pyLowerS (pyStripS (astypeStr (r.getD ri Value.null))) = centralS) := by
  obtain ⟨e1, _, _⟩ := norm_cell_reads si ri sti di r hsr hss hrs hsd hrd hstd
  rw [e1]
  by_cases hl : ri < r.length
  · rw [if_pos hl]
    simp [normRegion]
  · rw [if_neg hl, getD_long r ri _ (by omega)]
    decide

theorem status_pred_raw (si ri sti di : Nat) (hsr : si ≠ ri) (hss : si ≠ sti)
    (hrs : ri ≠ sti) (hsd : si ≠ di) (hrd : ri ≠ di) (hstd : sti ≠ di) (r : List Value) :
    statusOk ((setAt sti normStatus (setAt ri normRegion (setAt si normSite r))).getD sti
        Value.null) =
      (decide (pyUpperS (pyStripS (astypeStr (r.getD sti Value.null))) = onAirS) ||
       decide (pyUpperS (pyStripS (astypeStr (r.getD sti Value.null))) = inProgressS)) := by
  obtain ⟨_, e2, _⟩ := norm_cell_reads si ri sti di r hsr hss hrs hsd hrd hstd
  rw [e2]
  by_cases hl : sti < r.length
  · rw [if_pos hl]
    by_cases hA : pyUpperS (pyStripS (astypeStr (r.getD sti Value.null))) = onAirS
    · simp [statusOk, normStatus, hA]
    · by_cases hB : pyUpperS (pyStripS (astypeStr (r.getD sti Value.null))) = inProgressS
      · simp [statusOk, normStatus, hA, hB]
      · simp [statusOk, normStatus, hA, hB]
  · rw [if_neg hl, getD_long r sti _ (by omega)]
    decide

theorem kept_rows_raw (si ri sti di : Nat) (hsr : si ≠ ri) (hss : si ≠ sti)
    (hrs : ri ≠ sti) (hsd : si ≠ di) (hrd : ri ≠ di) (hstd : sti ≠ di)
    (rows : List (List Value)) :
    ((rows.map
        (fun r => setAt sti normStatus (setAt ri normRegion (setAt si normSite r)))).filter
        (fun r => decide (r.getD ri Value.null = Value.str centralS))).filter
        (fun r => statusOk (r.getD sti Value.null)) =
      ((rows.filter (fun r =>
          decide (pyLowerS (pyStripS (astypeStr (r.getD ri Value.null))) = centralS))).filter
        (fun r =>
          decide (pyUpperS (pyStripS (astypeStr (r.getD sti Value.null))) = onAirS) ||
          decide (pyUpperS (pyStripS (astypeStr (r.getD sti Value.null))) = inProgressS))).map
        (fun r => setAt sti normStatus (setAt ri normRegion (setAt si normSite r))) := by
  rw [filter_of_map
      (fun r => setAt sti normStatus (setAt ri normRegion (setAt si normSite r)))
      (fun r => decide (r.getD ri Value.null = Value.str centralS))
      (fun r => decide (pyLowerS (pyStripS (astypeStr (r.getD ri Value.null))) = centralS))
      (fun r => region_pred_raw si ri sti di hsr hss hrs hsd hrd hstd r) rows,
    filter_of_map
      (fun r => setAt sti normStatus (setAt ri normRegion (setAt si normSite r)))
      (fun r => statusOk (r.getD sti Value.null))
      (fun r =>
        decide (pyUpperS (pyStripS (astypeStr (r.getD sti Value.null))) = onAirS) ||
        decide (pyUpperS (pyStripS (astypeStr (r.getD sti Value.null))) = inProgressS))
      (fun r => status_pred_raw si ri sti di hsr hss hrs hsd hrd hstd r) _]

/-- C1 counterexample: an input whose headers carry region, status and date
aliases but no Site alias.  `clean_and_filter` raises `KeyError` (indexing
with the unresolved `None` column variable at line 109) instead of completing
with a synthesized `"Unknown"` site column as the claim states. -/
theorem C1_counterexample :
    clean_and_filter ⟨["Region", "COW Status", "Next Fueling Plan"],
      [[Value.str ("central"), Value.str ("ON-AIR"), Value.str ("2025-01-01")]]⟩ =
      Except.error (PyErr.keyError none) := rfl

/-- C1 (amended): whenever the header set lacks every alias of Site,
RegionOrCity or FuelDate, `clean_and_filter` raises an exception (a
`KeyError` from indexing with `None`); it never synthesizes an `"Unknown"`
placeholder or an all-absent date column. -/
theorem C1_missing_role_raises (df0 : DataFrame)
    (h : _pick_column (dfNorm df0) site_candidates = none ∨
         _pick_column (dfNorm df0) region_candidates = none ∨
         _pick_column (dfNorm df0) date_candidates = none) :
    ∃ e, clean_and_filter df0 = Except.error e := by
  rw [clean_eq_ref]
  rcases h with h | h | h
  · exact ⟨PyErr.keyError none, by simp [clean_ref, h]⟩
  · cases hs : _pick_column (dfNorm df0) site_candidates with
    | none => exact ⟨PyErr.keyError none, by simp [clean_ref, hs]⟩
    | some s =>
        obtain ⟨si, hsi⟩ := colIdx_of_mem _ s (pick_mem_cols hs)
        exact ⟨PyErr.keyError none, by simp [clean_ref, hs, hsi, h]⟩
  · cases hs : _pick_column (dfNorm df0) site_candidates with
    | none => exact ⟨PyErr.keyError none, by simp [clean_ref, hs]⟩
    | some s =>
        obtain ⟨si, hsi⟩ := colIdx_of_mem _ s (pick_mem_cols hs)
        cases hr : _pick_column (dfNorm df0) region_candidates with
        | none => exact ⟨PyErr.keyError none, by simp [clean_ref, hs, hsi, hr]⟩
        | some rg =>
            obtain ⟨ri, hri⟩ := colIdx_of_mem _ rg (pick_mem_cols hr)
            cases hst : _pick_column (dfNorm df0) status_candidates with
            | none =>
                exact ⟨PyErr.keyError none, by simp [clean_ref, hs, hsi, hr, hri, hst]⟩
            | some st =>
                obtain ⟨sti, hsti⟩ := colIdx_of_mem _ st (pick_mem_cols hst)
                exact ⟨PyErr.keyError none,
                  by simp [clean_ref, hs, hsi, hr, hri, hst, hsti, h]⟩

/-- C1 witness: a header set carrying only a Site alias lacks the
RegionOrCity role, and `clean_and_filter` indeed raises on it. -/
theorem C1_missing_role_raises_witness :
    _pick_column (dfNorm ⟨["sitename"], []⟩) region_candidates = none ∧
    ∃ e, clean_and_filter (⟨["sitename"], []⟩ : DataFrame) = Except.error e :=
  ⟨rfl, C1_missing_role_raises ⟨["sitename"], []⟩ (Or.inr (Or.inl rfl))⟩

/-- C2: on the pipeline's own filtered output (which has columns SiteName,
Region, COWStatus, NextFuelingPlan, lat, lng — no CityName), the dashboard
emission raises `KeyError("CityName")` at the field selection instead of
writing `data.json`; the claim describes the intended behavior, which the
code fails to implement because `clean_and_filter` stopped producing the
CityName column that `generate_dashboard_data` still selects. -/
theorem C2_dashboard_cityname_keyerror :
    clean_and_filter sampleInput = Except.ok (sampleOutput, true) ∧
    generate_dashboard_data sampleOutput true =
      Except.error (PyErr.keyError (some cityNameS)) :=
  ⟨rfl, rfl⟩

/-- C9 counterexample: on an input lacking a Site alias, `clean_and_filter`
raises a `KeyError` rather than returning at line 138, refuting the claim's
universally quantified "returns at its first return statement". -/
theorem C9_counterexample :
    clean_and_filter_O ⟨["Region"], [[Value.str ("central")]]⟩ =
      CAFOutcome.raised (PyErr.keyError none) ∧
    ∀ o : DataFrame × Bool,
      clean_and_filter_O ⟨["Region"], [[Value.str ("central")]]⟩ ≠
        CAFOutcome.returned o := by
  have e : clean_and_filter_O (⟨["Region"], [[Value.str ("central")]]⟩ : DataFrame) =
      CAFOutcome.raised (PyErr.keyError none) := rfl
  exact ⟨e, fun o h => by rw [e] at h; exact CAFOutcome.noConfusion h⟩

/-- C9 (amended): on every input, `clean_and_filter`'s body either raises or
returns at the unconditional `return` on line 138, so control never reaches
lines 141-191: under any semantics `tail` for those trailing statements the
full body equals the truncated body, and the count of `safe_parse_date`
invocations performed is zero. -/
theorem C9_dead_tail (tail : DataFrame → CAFOutcome × Nat) (df0 : DataFrame) :
    clean_and_filter_with_tail tail df0 = (clean_and_filter_O df0, 0) ∧
    ((∃ e, clean_and_filter_O df0 = CAFOutcome.raised e) ∨
     (∃ o, clean_and_filter_O df0 = CAFOutcome.returned o)) := by
  unfold clean_and_filter_with_tail clean_and_filter_O
  cases clean_and_filter df0 <;> simp

/-- C3: on a rectangular frame where the Site, Region, Status and FuelDate
roles all resolve and each resolved label occurs exactly once among the
normalized headers (elsewhere pandas raises before filtering), the filter
keeps exactly the claimed rows, for EVERY series parser `toDT` standing for
`pd.to_datetime(·, errors="coerce")` (length-preserving, each output a
datetime or NaT): the pipeline succeeds, the rows surviving the region and
status filters are exactly the input rows whose region value after trimming
and case folding equals `"central"` and whose status value after trimming
and case folding belongs to `{ON-AIR, IN PROGRESS}` (conjunct 2, stated on
the raw cells), the date filter then keeps exactly the rows whose parsed
series entry is non-null (conjuncts 1 and 3), the series is parsed from the
rows' raw date cells (conjunct 4), a non-null parsed entry is exactly a
parsed calendar date (conjunct 5), and the file's concrete
`clean_and_filter` is the instance of this pipeline at the sample cell
parser (conjunct 6). -/
theorem C3_row_filter_iff (toDT : List Value → List Value)
    (hlen : ∀ vs : List Value, (toDT vs).length = vs.length)
    (hvals : ∀ vs : List Value, ∀ v ∈ toDT vs,
      v = Value.null ∨ ∃ d : Date, v = Value.date d)
    (df0 : DataFrame) (s rg st dt : String) (si ri sti di : Nat)
    (hs : _pick_column (dfNorm df0) site_candidates = some s)
    (hr : _pick_column (dfNorm df0) region_candidates = some rg)
    (hst : _pick_column (dfNorm df0) status_candidates = some st)
    (hdt : _pick_column (dfNorm df0) date_candidates = some dt)
    (hsi : colIdx (dfNorm df0).cols s = some si)
    (hri : colIdx (dfNorm df0).cols rg = some ri)
    (hsti : colIdx (dfNorm df0).cols st = some sti)
    (hdi : colIdx (dfNorm df0).cols dt = some di)
    (hrect : ∀ r ∈ df0.rows, df0.cols.length ≤ r.length)
    (huniq : ∀ c : String,
      (c = s ∨ c = rg ∨ c = st ∨ c = dt ∨
       _pick_column (dfNorm df0) lat_candidates = some c ∨
       _pick_column (dfNorm df0) lng_candidates = some c) →
      List.count c (dfNorm df0).cols = 1)
    (K : List (List Value))
    (hK : K = ((df0.rows.map
        (fun r => setAt sti normStatus (setAt ri normRegion (setAt si normSite r)))).filter
        (fun r => decide (r.getD ri Value.null = Value.str centralS))).filter
        (fun r => statusOk (r.getD sti Value.null))) :
    clean_and_filterDT toDT df0 =
      Except.ok (⟨outColsOf (coordOf (dfNorm df0)),
        ((List.zipWith (fun r v => r.set di v) K
            (toDT (K.map (fun r => r.getD di Value.null)))).filter
          (fun r => decide (r.getD di Value.null ≠ Value.null))).map
          (projRow si ri sti di (coordOf (dfNorm df0)))⟩,
        hasCoordsOf (dfNorm df0)) ∧
    K = ((df0.rows.filter (fun r =>
          decide (pyLowerS (pyStripS (astypeStr (r.getD ri Value.null))) = centralS))).filter
        (fun r =>
          decide (pyUpperS (pyStripS (astypeStr (r.getD sti Value.null))) = onAirS) ||
          decide (pyUpperS (pyStripS (astypeStr (r.getD sti Value.null))) = inProgressS))).map
        (fun r => setAt sti normStatus (setAt ri normRegion (setAt si normSite r))) ∧
    (∀ r ∈ K, ∀ v : Value, (r.set di v).getD di Value.null = v) ∧
    (∀ r : List Value,
      (setAt sti normStatus (setAt ri normRegion (setAt si normSite r))).getD di Value.null =
        r.getD di Value.null) ∧
    (∀ vs : List Value, ∀ v ∈ toDT vs,
      (v ≠ Value.null ↔ ∃ d : Date, v = Value.date d)) ∧
    clean_and_filterDT (fun vs => vs.map coerceDate) df0 = clean_and_filter df0 := by
  obtain ⟨d1, d2, d3, d4, d5, d6⟩ := resolved_idx_ne (dfNorm df0).cols s rg st dt si ri sti di
    (pick_mem_cands hs) (pick_mem_cands hr) (pick_mem_cands hst) (pick_mem_cands hdt)
    hsi hri hsti hdi
  have hdiLt : di < df0.cols.length := by
    have h := colIdx_lt (dfNorm df0).cols dt di hdi
    simpa [dfNorm, _normalize_columns] using h
  subst hK
  refine ⟨?_, kept_rows_raw si ri sti di d1 d2 d3 d4 d5 d6 df0.rows, ?_, ?_, ?_,
    clean_and_filterDT_coerce df0⟩
  · cases hla : _pick_column (dfNorm df0) lat_candidates with
    | none =>
        simp [clean_and_filterDT, toDatetimeColE, hs, hsi, hr, hri, hst, hsti, hdt, hdi,
          hla, normColE, getColE, except_bind_err, except_bind_ok, except_pure,
          except_map_ok, except_map_err, filterRows, filter_zip_maps, zip_map_self_filter,
          map_filter_zip_self, dfNorm_rows, List.filter_map, Function.comp_def,
          Bool.and_assoc, idxsOfE, selectRenameE, appendCol, zipWith_map_same, coordOf,
          pickIdx, hasCoordsOf, outColsOf, projRow_elim]
    | some la =>
        obtain ⟨li, hli⟩ := colIdx_of_mem _ la (pick_mem_cols hla)
        cases hln : _pick_column (dfNorm df0) lng_candidates with
        | none =>
            simp [clean_and_filterDT, toDatetimeColE, hs, hsi, hr, hri, hst, hsti, hdt,
              hdi, hla, hli, hln, normColE, getColE, except_bind_err, except_bind_ok,
              except_pure, except_map_ok, except_map_err, filterRows, filter_zip_maps,
              zip_map_self_filter, map_filter_zip_self, dfNorm_rows, List.filter_map,
              Function.comp_def, Bool.and_assoc, idxsOfE, selectRenameE, appendCol,
              zipWith_map_same, coordOf, pickIdx, hasCoordsOf, outColsOf, projRow_elim]
        | some ln =>
            obtain ⟨ni, hni⟩ := colIdx_of_mem _ ln (pick_mem_cols hln)
            simp [clean_and_filterDT, toDatetimeColE, hs, hsi, hr, hri, hst, hsti, hdt,
              hdi, hla, hli, hln, hni, normColE, getColE, except_bind_err, except_bind_ok,
              except_pure, except_map_ok, except_map_err, filterRows, filter_zip_maps,
              zip_map_self_filter, map_filter_zip_self, dfNorm_rows, List.filter_map,
              Function.comp_def, Bool.and_assoc, idxsOfE, selectRenameE, appendCol,
              zipWith_map_same, coordOf, pickIdx, hasCoordsOf, outColsOf, projRow_elim]
  · intro r hrK v
    have hr1 := (List.mem_filter.mp hrK).1
    have hrmem := (List.mem_filter.mp hr1).1
    obtain ⟨q, hq, rfl⟩ := List.mem_map.mp hrmem
    have hlenq : di < q.length := lt_of_lt_of_le hdiLt (hrect q hq)
    have hlenr : di <
        (setAt sti normStatus (setAt ri normRegion (setAt si normSite q))).length := by
      rw [setAt_length, setAt_length, setAt_length]
      exact hlenq
    exact getD_set_self _ di v Value.null hlenr
  · intro r
    rw [getD_setAt_ne sti di _ _ d6, getD_setAt_ne ri di _ _ d5, getD_setAt_ne si di _ _ d4]
  · intro vs v hv
    rcases hvals vs v hv with rfl | ⟨d, rfl⟩
    · simp
    · simp

/-- C3 witness: on `sampleInput` all four roles resolve at indices 0-3 with
uniquely occurring labels, the sample cell parser satisfies the series
parser interface, and the theorem's characterization evaluates to the
concrete output frame. -/
theorem C3_row_filter_iff_witness :
    clean_and_filterDT (fun vs => vs.map coerceDate) sampleInput =
      Except.ok (sampleOutput, true) ∧
    clean_and_filter sampleInput = Except.ok (sampleOutput, true) := by
  have h := C3_row_filter_iff (fun vs => vs.map coerceDate)
    (fun vs => by simp)
    (fun vs v hv => by
      rcases List.mem_map.mp hv with ⟨w, hw, rfl⟩
      cases hpd : pdToDatetime w with
      | none => exact Or.inl (by simp [coerceDate, hpd])
      | some d => exact Or.inr ⟨d, by simp [coerceDate, hpd]⟩)
    sampleInput ("sitename") ("region") ("cowstatus") ("nextfuelingplan") 0 1 2 3
    rfl rfl rfl rfl rfl rfl rfl rfl
    (by decide)
    (by
      intro c hc
      rcases hc with rfl | rfl | rfl | rfl | hcc | hcc
      · decide
      · decide
      · decide
      · decide
      · have hc2 : c = latS := (Option.some.inj hcc).symm
        subst hc2
        decide
      · have hc2 : c = lngS := (Option.some.inj hcc).symm
        subst hc2
        decide)
    _ rfl
  exact ⟨h.1.trans rfl, (h.2.2.2.2.2.symm.trans h.1).trans rfl⟩

/-- C10: every row of a successfully returned `clean_and_filter` frame has
`Region` exactly the lowercase trimmed string `"central"`, `COWStatus`
exactly `"ON-AIR"` or `"IN PROGRESS"` (uppercase, trimmed), and
`NextFuelingPlan` a present parsed date — the output is normalized, not just
matched case/whitespace-insensitively. -/
theorem C10_output_invariant (df0 : DataFrame) (out : DataFrame) (hc : Bool)
    (h : clean_and_filter df0 = Except.ok (out, hc)) :
    ∀ r ∈ out.rows,
      cellVal out regionOutS r = some (Value.str centralS) ∧
      (cellVal out cowStatusS r = some (Value.str onAirS) ∨
       cellVal out cowStatusS r = some (Value.str inProgressS)) ∧
      (∃ d : Date, cellVal out nextFuelingPlanS r = some (Value.date d)) := by
  rw [clean_eq_ref] at h
  cases hs : _pick_column (dfNorm df0) site_candidates with
  | none => simp [clean_ref, hs] at h
  | some s =>
  obtain ⟨si, hsi⟩ := colIdx_of_mem _ s (pick_mem_cols hs)
  cases hr : _pick_column (dfNorm df0) region_candidates with
  | none => simp [clean_ref, hs, hsi, hr] at h
  | some rg =>
  obtain ⟨ri, hri⟩ := colIdx_of_mem _ rg (pick_mem_cols hr)
  cases hst : _pick_column (dfNorm df0) status_candidates with
  | none => simp [clean_ref, hs, hsi, hr, hri, hst] at h
  | some st =>
  obtain ⟨sti, hsti⟩ := colIdx_of_mem _ st (pick_mem_cols hst)
  cases hdt : _pick_column (dfNorm df0) date_candidates with
  | none => simp [clean_ref, hs, hsi, hr, hri, hst, hsti, hdt] at h
  | some dt =>
  obtain ⟨di, hdi⟩ := colIdx_of_mem _ dt (pick_mem_cols hdt)
  obtain ⟨d1, d2, d3, d4, d5, d6⟩ := resolved_idx_ne (dfNorm df0).cols s rg st dt si ri sti di
    (pick_mem_cands hs) (pick_mem_cands hr) (pick_mem_cands hst) (pick_mem_cands hdt)
    hsi hri hsti hdi
  simp only [clean_ref, hs, hsi, hr, hri, hst, hsti, hdt, hdi, Except.ok.injEq,
    Prod.mk.injEq] at h
  obtain ⟨hout, hhc⟩ := h
  subst hout
  intro r hrmem
  obtain ⟨r0, hr0mem, hkeep⟩ := List.mem_filterMap.mp hrmem
  simp only [keepRow] at hkeep
  by_cases c1 : (decide ((setAt sti normStatus (setAt ri normRegion
      (setAt si normSite r0))).getD ri Value.null = Value.str centralS) &&
      statusOk ((setAt sti normStatus (setAt ri normRegion
      (setAt si normSite r0))).getD sti Value.null)) = true
  · rw [if_pos c1] at hkeep
    by_cases c2 : decide ((setAt di coerceDate (setAt sti normStatus (setAt ri normRegion
        (setAt si normSite r0)))).getD di Value.null ≠ Value.null) = true
    · rw [if_pos c2] at hkeep
      obtain ⟨hreg, hstat⟩ : _ ∧ _ := by simp only [Bool.and_eq_true] at c1; exact c1
      have hreg' := of_decide_eq_true hreg
      have hdnn := of_decide_eq_true c2
      have hrproj : r = projRow si ri sti di (coordOf (dfNorm df0))
          (setAt di coerceDate (setAt sti normStatus (setAt ri normRegion
          (setAt si normSite r0)))) := (Option.some.injEq _ _ ▸ hkeep).symm
      have hr1 : r.getD 1 Value.null = (setAt di coerceDate (setAt sti normStatus
          (setAt ri normRegion (setAt si normSite r0)))).getD ri Value.null := by
        rw [hrproj]; cases coordOf (dfNorm df0) <;> simp [projRow]
      have hr2 : r.getD 2 Value.null = (setAt di coerceDate (setAt sti normStatus
          (setAt ri normRegion (setAt si normSite r0)))).getD sti Value.null := by
        rw [hrproj]; cases coordOf (dfNorm df0) <;> simp [projRow]
      have hr3 : r.getD 3 Value.null = (setAt di coerceDate (setAt sti normStatus
          (setAt ri normRegion (setAt si normSite r0)))).getD di Value.null := by
        rw [hrproj]; cases coordOf (dfNorm df0) <;> simp [projRow]
      have hcell1 : cellVal ⟨outColsOf (coordOf (dfNorm df0)),
          List.filterMap (keepRow si ri sti di (coordOf (dfNorm df0))) df0.rows⟩
          regionOutS r = some (r.getD 1 Value.null) := by
        cases coordOf (dfNorm df0) <;> rfl
      have hcell2 : cellVal ⟨outColsOf (coordOf (dfNorm df0)),
          List.filterMap (keepRow si ri sti di (coordOf (dfNorm df0))) df0.rows⟩
          cowStatusS r = some (r.getD 2 Value.null) := by
        cases coordOf (dfNorm df0) <;> rfl
      have hcell3 : cellVal ⟨outColsOf (coordOf (dfNorm df0)),
          List.filterMap (keepRow si ri sti di (coordOf (dfNorm df0))) df0.rows⟩
          nextFuelingPlanS r = some (r.getD 3 Value.null) := by
        cases coordOf (dfNorm df0) <;> rfl
      refine ⟨?_, ?_, ?_⟩
      · rw [hcell1, hr1, getD_setAt_ne di ri _ _ (Ne.symm d5), hreg']
      · have hst2 : (setAt di coerceDate (setAt sti normStatus (setAt ri normRegion
            (setAt si normSite r0)))).getD sti Value.null =
            (setAt sti normStatus (setAt ri normRegion
            (setAt si normSite r0))).getD sti Value.null :=
          getD_setAt_ne di sti _ _ (Ne.symm d6)
        rcases of_decide_eq_true hstat with hv | hv
        · left
          rw [hcell2, hr2, hst2, hv]
        · right
          rw [hcell2, hr2, hst2, hv]
      · by_cases hl : di < (setAt sti normStatus (setAt ri normRegion
            (setAt si normSite r0))).length
        · have hsetd := getD_setAt_self di coerceDate _ hl
          rw [hsetd] at hdnn hr3
          cases hpd : pdToDatetime ((setAt sti normStatus (setAt ri normRegion
              (setAt si normSite r0))).getD di Value.null) with
          | none =>
              rw [coerceDate, hpd] at hdnn
              exact absurd rfl hdnn
          | some d =>
              refine ⟨d, ?_⟩
              rw [hcell3, hr3]
              simp only [coerceDate, hpd]
        · have hsetd := getD_setAt_long di coerceDate
            (setAt sti normStatus (setAt ri normRegion (setAt si normSite r0))) (by omega)
          rw [hsetd] at hdnn
          exact absurd rfl hdnn
    · rw [if_neg c2] at hkeep
      exact absurd hkeep (by simp)
  · rw [if_neg c1] at hkeep
    exact absurd hkeep (by simp)

/-- C10 witness: the invariant instantiated on the concrete pipeline output. -/
theorem C10_output_invariant_witness :
    clean_and_filter sampleInput = Except.ok (sampleOutput, true) ∧
    ∀ r ∈ sampleOutput.rows,
      cellVal sampleOutput regionOutS r = some (Value.str centralS) ∧
      (cellVal sampleOutput cowStatusS r = some (Value.str onAirS) ∨
       cellVal sampleOutput cowStatusS r = some (Value.str inProgressS)) ∧
      (∃ d : Date, cellVal sampleOutput nextFuelingPlanS r = some (Value.date d)) :=
  ⟨rfl, C10_output_invariant sampleInput sampleOutput true rfl⟩

/-- C4 counterexample: a run whose remote fetch succeeds while no cache file
exists.  `load_data` returns the fetched table but the cache file is still
absent afterwards — the claimed cache-refresh write (and the `refresh_cache`
option) do not exist in the code. -/
theorem C4_counterexample :
    (load_data ⟨some sampleInput, none⟩).1 = Except.ok sampleInput ∧
    (load_data ⟨some sampleInput, none⟩).2 = none ∧
    (load_data ⟨some sampleInput, none⟩).2 ≠ some sampleInput :=
  ⟨rfl, rfl, fun h => Option.noConfusion h⟩

/-- C4 (amended): `load_data` never writes the cache file — after any run
the cache contents equal the prior contents — and on remote success it
returns the fetched table directly. -/
theorem C4_cache_never_written (env : LoadEnv) :
    (load_data env).2 = env.cache ∧
    (∀ t : DataFrame, env.remote = some t → (load_data env).1 = Except.ok t) := by
  obtain ⟨remote, cache⟩ := env
  cases remote with
  | none => cases cache <;> simp [load_data]
  | some t => simp [load_data]

/-- C4 witness: the amended statement evaluated on a successful fetch with an
absent cache. -/
theorem C4_cache_never_written_witness :
    (load_data ⟨some sampleInput, none⟩).2 = none ∧
    (load_data ⟨some sampleInput, none⟩).1 = Except.ok sampleInput :=
  ⟨(C4_cache_never_written ⟨some sampleInput, none⟩).1,
   (C4_cache_never_written ⟨some sampleInput, none⟩).2 sampleInput rfl⟩

/-- C7: `load_data` raises (`FileNotFoundError`, the sole fatal condition)
exactly when the remote fetch fails and no cache file exists; when the
remote fails but a cache exists, the cached table is returned. -/
theorem C7_load_fallback (env : LoadEnv) :
    ((∃ msg, (load_data env).1 = Except.error msg) ↔
      (env.remote = none ∧ env.cache = none)) ∧
    (env.remote = none → ∀ t : DataFrame, env.cache = some t →
      (load_data env).1 = Except.ok t) := by
  obtain ⟨remote, cache⟩ := env
  cases remote <;> cases cache <;> simp [load_data]

/-- C7 witness: remote failure with an existing cache returns the cache. -/
theorem C7_load_fallback_witness :
    ((∃ msg, (load_data ⟨none, some sampleInput⟩).1 = Except.error msg) ↔
      ((⟨none, some sampleInput⟩ : LoadEnv).remote = none ∧
       (⟨none, some sampleInput⟩ : LoadEnv).cache = none)) ∧
    (load_data ⟨none, some sampleInput⟩).1 = Except.ok sampleInput :=
  ⟨(C7_load_fallback ⟨none, some sampleInput⟩).1,
   (C7_load_fallback ⟨none, some sampleInput⟩).2 rfl sampleInput rfl⟩

/-- C6 counterexample: with normalized headers `name` before `sitename`
(from raw headers `Name`, `Site Name`), `_pick_column` binds `name` — the
header that comes first in header order — even though `sitename` precedes
`name` in the Site candidate priority list, refuting candidate-priority
resolution. -/
theorem C6_counterexample :
    _pick_column ⟨_normalize_columns ["Name", "Site Name"], []⟩ site_candidates =
      some ("name") ∧ ("name" : String) ≠ "sitename" :=
  ⟨rfl, by decide⟩

theorem find_first_mem : ∀ (cols : List String) (cands : List String) (i : Nat)
    (hi : i < cols.length), cols.get ⟨i, hi⟩ ∈ cands →
    (∀ j (hj : j < i), cols.get ⟨j, hj.trans hi⟩ ∉ cands) →
    cols.find? (fun c => decide (c ∈ cands)) = some (cols.get ⟨i, hi⟩) := by
  intro cols
  induction cols with
  | nil => intro cands i hi; simp at hi
  | cons c rest ih =>
      intro cands i hi hmem hfirst
      cases i with
      | zero =>
          have hc : decide (c ∈ cands) = true := decide_eq_true hmem
          simp [List.find?, hc]
      | succ i' =>
          have hc : c ∉ cands := by
            have := hfirst 0 (Nat.succ_pos i')
            simpa using this
          have hcd : decide (c ∈ cands) = false := by simp [hc]
          have hi' : i' < rest.length := Nat.lt_of_succ_lt_succ hi
          have hmem' : rest.get ⟨i', hi'⟩ ∈ cands := by simpa using hmem
          have hfirst' : ∀ j (hj : j < i'), rest.get ⟨j, hj.trans hi'⟩ ∉ cands := by
            intro j hj
            have := hfirst (j + 1) (Nat.succ_lt_succ hj)
            simpa using this
          have := ih cands i' hi' hmem' hfirst'
          simp [List.find?, hcd, this]

/-- C6 (amended): `_pick_column` binds the role to the first header in
header order whose normalized form belongs to the candidate list, regardless
of where that alias sits in the candidate list's priority order. -/
theorem C6_header_order_wins (df : DataFrame) (cands : List String) (i : Nat)
    (hi : i < df.cols.length) (hmem : df.cols.get ⟨i, hi⟩ ∈ cands)
    (hfirst : ∀ j (hj : j < i), df.cols.get ⟨j, hj.trans hi⟩ ∉ cands) :
    _pick_column df cands = some (df.cols.get ⟨i, hi⟩) :=
  find_first_mem df.cols cands i hi hmem hfirst

/-- C6 witness: the amended rule evaluated where the matching header sits at
position 1 after a non-alias header. -/
theorem C6_header_order_wins_witness :
    ((⟨["x", "sitename", "site"], []⟩ : DataFrame).cols.get ⟨1, by decide⟩ ∈
      site_candidates) ∧
    _pick_column ⟨["x", "sitename", "site"], []⟩ site_candidates = some ("sitename") :=
  ⟨by decide, (C6_header_order_wins ⟨["x", "sitename", "site"], []⟩ site_candidates 1
    (by decide) (by decide) (by decide)).trans rfl⟩

theorem date_trichotomyB (d t : Date) :
    (decide (d = t) = true ∧ dateLtB d t = false ∧ dateLtB t d = false) ∨
    (decide (d = t) = false ∧ dateLtB d t = true ∧ dateLtB t d = false) ∨
    (decide (d = t) = false ∧ dateLtB d t = false ∧ dateLtB t d = true) := by
  obtain ⟨a, b, c⟩ := d
  obtain ⟨x, y, z⟩ := t
  simp only [dateLtB, Date.mk.injEq, decide_eq_true_eq, decide_eq_false_iff_not]
  omega

theorem perm_three_filter {γ : Type} (p1 p2 p3 : γ → Bool) :
    ∀ l : List γ,
    (∀ x ∈ l, p1 x = true ∨ p2 x = true ∨ p3 x = true) →
    (∀ x ∈ l, ¬(p1 x = true ∧ p2 x = true)) →
    (∀ x ∈ l, ¬(p1 x = true ∧ p3 x = true)) →
    (∀ x ∈ l, ¬(p2 x = true ∧ p3 x = true)) →
    List.Perm (l.filter p1 ++ l.filter p2 ++ l.filter p3) l := by
  intro l
  induction l with
  | nil => intro _ _ _ _; exact List.Perm.nil
  | cons x xs ih =>
      intro hcov h12 h13 h23
      have ihp := ih (fun a ha => hcov a (List.mem_cons_of_mem x ha))
        (fun a ha => h12 a (List.mem_cons_of_mem x ha))
        (fun a ha => h13 a (List.mem_cons_of_mem x ha))
        (fun a ha => h23 a (List.mem_cons_of_mem x ha))
      have ihp' : List.Perm (xs.filter p1 ++ (xs.filter p2 ++ xs.filter p3)) xs := by
        rw [← List.append_assoc]; exact ihp
      have hx := List.mem_cons_self x xs
      rcases hcov x hx with h1 | h2 | h3
      · have e2 : p2 x = false := by
          cases he : p2 x
          · rfl
          · exact absurd ⟨h1, he⟩ (h12 x hx)
        have e3 : p3 x = false := by
          cases he : p3 x
          · rfl
          · exact absurd ⟨h1, he⟩ (h13 x hx)
        simp only [List.filter_cons, h1, e2, e3]
        simp only [if_true, Bool.false_eq_true, if_false, List.cons_append,
          List.append_assoc]
        exact ihp'.cons x
      · have e1 : p1 x = false := by
          cases he : p1 x
          · rfl
          · exact absurd ⟨he, h2⟩ (h12 x hx)
        have e3 : p3 x = false := by
          cases he : p3 x
          · rfl
          · exact absurd ⟨h2, he⟩ (h23 x hx)
        simp only [List.filter_cons, e1, h2, e3]
        simp only [if_true, Bool.false_eq_true, if_false, List.cons_append,
          List.append_assoc]
        exact List.Perm.trans List.perm_middle (ihp'.cons x)
      · have e1 : p1 x = false := by
          cases he : p1 x
          · rfl
          · exact absurd ⟨he, h3⟩ (h13 x hx)
        have e2 : p2 x = false := by
          cases he : p2 x
          · rfl
          · exact absurd ⟨he, h3⟩ (h23 x hx)
        simp only [List.filter_cons, e1, e2, h3]
        simp only [if_true, Bool.false_eq_true, if_false, List.cons_append,
          List.append_assoc]
        have h1p : List.Perm (xs.filter p1 ++ (xs.filter p2 ++ x :: xs.filter p3))
            (xs.filter p1 ++ (x :: (xs.filter p2 ++ xs.filter p3))) :=
          List.Perm.append_left _ List.perm_middle
        have h2p : List.Perm (xs.filter p1 ++ x :: (xs.filter p2 ++ xs.filter p3))
            (x :: (xs.filter p1 ++ (xs.filter p2 ++ xs.filter p3))) := List.perm_middle
        exact h1p.trans (h2p.trans (ihp'.cons x))

/-- C8: for any canonical frame whose `NextFuelingPlan` cells are all parsed
dates, `generate_reports` makes the today report exactly the rows with
`fuel_date = today`, the pending report exactly the rows with
`fuel_date < today`; the two are disjoint, and together with the rows dated
strictly after today (which appear in neither report) they cover the input
rows exactly (as a permutation). -/
theorem C8_report_partition (df : DataFrame) (today : Date) (vals : List Value)
    (hv : getColE df (some nextFuelingPlanS) = Except.ok vals)
    (hd : ∀ v ∈ vals, isDateV v = true) :
    generate_reports df today = Except.ok
      (⟨df.cols, rowsWith df vals (fun v => valueDateEq v today)⟩,
       ⟨df.cols, rowsWith df vals (fun v => valueDateLt v today)⟩) ∧
    List.Perm (rowsWith df vals (fun v => valueDateEq v today) ++
      rowsWith df vals (fun v => valueDateLt v today) ++
      rowsWith df vals (fun v => valueDateGt v today)) df.rows ∧
    (∀ v : Value, ¬(valueDateEq v today = true ∧ valueDateLt v today = true)) ∧
    (∀ v : Value, ¬(valueDateEq v today = true ∧ valueDateGt v today = true)) ∧
    (∀ v : Value, ¬(valueDateLt v today = true ∧ valueDateGt v today = true)) := by
  have hvals : ∃ i, colIdx df.cols nextFuelingPlanS = some i ∧
      vals = df.rows.map (fun r => r.getD i Value.null) := by
    cases hci : colIdx df.cols nextFuelingPlanS with
    | none => simp [getColE, hci] at hv
    | some i =>
        simp only [getColE, hci, Except.ok.injEq] at hv
        exact ⟨i, rfl, hv.symm⟩
  obtain ⟨i, hci, hveq⟩ := hvals
  have hlen : df.rows.length ≤ vals.length := by rw [hveq]; simp
  refine ⟨?_, ?_, ?_, ?_, ?_⟩
  · have hveq' : vals = df.rows.map (fun r => r[i]?.getD Value.null) := by
      simpa using hveq
    subst hveq'
    simp [generate_reports, getColE, hci, except_bind_ok, except_pure,
      filterRows, rowsWith, zip_map_snd_filter]
  · have hperm := perm_three_filter (fun p => valueDateEq p.2 today)
      (fun p => valueDateLt p.2 today) (fun p => valueDateGt p.2 today)
      (df.rows.zip vals)
      (by
        intro x hxm
        have hv2 := hd x.2 (List.of_mem_zip hxm).2
        cases hx2 : x.2 with
        | date d =>
            rcases date_trichotomyB d today with ⟨he, _, _⟩ | ⟨_, hl, _⟩ | ⟨_, _, hg⟩
            · left; simp [valueDateEq, hx2, of_decide_eq_true he]
            · right; left; simp [valueDateLt, hx2, hl]
            · right; right; simp [valueDateGt, hx2, hg]
        | str s => rw [hx2] at hv2; simp [isDateV] at hv2
        | num n => rw [hx2] at hv2; simp [isDateV] at hv2
        | null => rw [hx2] at hv2; simp [isDateV] at hv2)
      (by
        intro x _ hab
        obtain ⟨ha, hb⟩ := hab
        simp only [] at ha hb
        cases hx2 : x.2 with
        | date d =>
            rw [hx2] at ha hb
            have ha' := of_decide_eq_true ha
            injection ha' with ha''
            subst ha''
            simp only [valueDateLt] at hb
            obtain ⟨p, q, r⟩ := d
            simp only [dateLtB, decide_eq_true_eq] at hb
            omega
        | str s => rw [hx2] at ha; simp [valueDateEq] at ha
        | num n => rw [hx2] at ha; simp [valueDateEq] at ha
        | null => rw [hx2] at ha; simp [valueDateEq] at ha)
      (by
        intro x _ hab
        obtain ⟨ha, hb⟩ := hab
        simp only [] at ha hb
        cases hx2 : x.2 with
        | date d =>
            rw [hx2] at ha hb
            have ha' := of_decide_eq_true ha
            injection ha' with ha''
            subst ha''
            simp only [valueDateGt] at hb
            obtain ⟨p, q, r⟩ := d
            simp only [dateLtB, decide_eq_true_eq] at hb
            omega
        | str s => rw [hx2] at ha; simp [valueDateEq] at ha
        | num n => rw [hx2] at ha; simp [valueDateEq] at ha
        | null => rw [hx2] at ha; simp [valueDateEq] at ha)
      (by
        intro x _ hab
        obtain ⟨ha, hb⟩ := hab
        simp only [] at ha hb
        cases hx2 : x.2 with
        | date d =>
            rw [hx2] at ha hb
            simp only [valueDateLt] at ha
            simp only [valueDateGt] at hb
            obtain ⟨p, q, r⟩ := d
            obtain ⟨p2, q2, r2⟩ := today
            simp only [dateLtB, decide_eq_true_eq] at ha hb
            omega
        | str s => rw [hx2] at ha; simp [valueDateLt] at ha
        | num n => rw [hx2] at ha; simp [valueDateLt] at ha
        | null => rw [hx2] at ha; simp [valueDateLt] at ha)
    have hmap := hperm.map Prod.fst
    rw [List.map_append, List.map_append, List.map_fst_zip df.rows vals hlen] at hmap
    exact hmap
  · intro v ⟨ha, hb⟩
    cases v with
    | date d =>
        have ha' := of_decide_eq_true ha
        injection ha' with ha''
        subst ha''
        simp only [valueDateLt] at hb
        obtain ⟨p, q, r⟩ := d
        simp only [dateLtB, decide_eq_true_eq] at hb
        omega
    | str s => simp [valueDateEq] at ha
    | num n => simp [valueDateEq] at ha
    | null => simp [valueDateEq] at ha
  · intro v ⟨ha, hb⟩
    cases v with
    | date d =>
        have ha' := of_decide_eq_true ha
        injection ha' with ha''
        subst ha''
        simp only [valueDateGt] at hb
        obtain ⟨p, q, r⟩ := d
        simp only [dateLtB, decide_eq_true_eq] at hb
        omega
    | str s => simp [valueDateEq] at ha
    | num n => simp [valueDateEq] at ha
    | null => simp [valueDateEq] at ha
  · intro v ⟨ha, hb⟩
    cases v with
    | date d =>
        simp only [valueDateLt] at ha
        simp only [valueDateGt] at hb
        obtain ⟨p, q, r⟩ := d
        obtain ⟨p2, q2, r2⟩ := today
        simp only [dateLtB, decide_eq_true_eq] at ha hb
        omega
    | str s => simp [valueDateLt] at ha
    | num n => simp [valueDateLt] at ha
    | null => simp [valueDateLt] at ha

/-- C8 witness: a three-row frame dated today, yesterday and tomorrow splits
into the expected today/pending reports. -/
theorem C8_report_partition_witness :
    getColE ⟨[nextFuelingPlanS], [[Value.date ⟨2025, 3, 16⟩], [Value.date ⟨2025, 3, 15⟩],
        [Value.date ⟨2025, 3, 17⟩]]⟩ (some nextFuelingPlanS) =
      Except.ok [Value.date ⟨2025, 3, 16⟩, Value.date ⟨2025, 3, 15⟩,
        Value.date ⟨2025, 3, 17⟩] ∧
    generate_reports ⟨[nextFuelingPlanS], [[Value.date ⟨2025, 3, 16⟩],
        [Value.date ⟨2025, 3, 15⟩], [Value.date ⟨2025, 3, 17⟩]]⟩ ⟨2025, 3, 16⟩ =
      Except.ok (⟨[nextFuelingPlanS], [[Value.date ⟨2025, 3, 16⟩]]⟩,
        ⟨[nextFuelingPlanS], [[Value.date ⟨2025, 3, 15⟩]]⟩) :=
  ⟨rfl, ((C8_report_partition ⟨[nextFuelingPlanS], [[Value.date ⟨2025, 3, 16⟩],
      [Value.date ⟨2025, 3, 15⟩], [Value.date ⟨2025, 3, 17⟩]]⟩ ⟨2025, 3, 16⟩
      [Value.date ⟨2025, 3, 16⟩, Value.date ⟨2025, 3, 15⟩, Value.date ⟨2025, 3, 17⟩]
      rfl (by decide)).1).trans rfl⟩

theorem dg_isDigit (k : Nat) (h : k ≤ 9) : (dg k).isDigit = true := by
  interval_cases k <;> decide

theorem dg_not_alpha (k : Nat) (h : k ≤ 9) : (dg k).isAlpha = false := by
  interval_cases k <;> decide

theorem dg_not_ws (k : Nat) (h : k ≤ 9) : (dg k).isWhitespace = false := by
  interval_cases k <;> decide

theorem dg_val (k : Nat) (h : k ≤ 9) : (dg k).toNat - 48 = k := by
  interval_cases k <;> decide

theorem pad2_digits (n : Nat) (h : n < 100) : ∀ c ∈ pad2 n, c.isDigit = true := by
  intro c hc
  simp only [pad2, List.mem_cons, List.not_mem_nil, or_false] at hc
  rcases hc with rfl | rfl
  · exact dg_isDigit _ (by omega)
  · exact dg_isDigit _ (by omega)

theorem pad4_digits (n : Nat) (h : n < 10000) : ∀ c ∈ pad4 n, c.isDigit = true := by
  intro c hc
  simp only [pad4, List.mem_cons, List.not_mem_nil, or_false] at hc
  rcases hc with rfl | rfl | rfl | rfl
  · exact dg_isDigit _ (by omega)
  · exact dg_isDigit _ (by omega)
  · exact dg_isDigit _ (by omega)
  · exact dg_isDigit _ (by omega)

theorem digitsVal_pad2 (n : Nat) (h : n < 100) : digitsVal (pad2 n) = n := by
  show 10 * (10 * 0 + ((dg (n / 10)).toNat - 48)) + ((dg (n % 10)).toNat - 48) = n
  rw [dg_val _ (by omega), dg_val _ (by omega)]
  omega

theorem digitsVal_pad4 (n : Nat) (h : n < 10000) : digitsVal (pad4 n) = n := by
  show 10 * (10 * (10 * (10 * 0 + ((dg (n / 1000)).toNat - 48)) +
    ((dg (n / 100 % 10)).toNat - 48)) + ((dg (n / 10 % 10)).toNat - 48)) +
    ((dg (n % 10)).toNat - 48) = n
  rw [dg_val _ (by omega), dg_val _ (by omega), dg_val _ (by omega), dg_val _ (by omega)]
  omega

theorem takeWhile_app (p : Char → Bool) : ∀ (l r : List Char),
    (∀ c ∈ l, p c = true) → (∀ c, r.head? = some c → p c = false) →
    (l ++ r).takeWhile p = l ∧ (l ++ r).dropWhile p = r := by
  intro l
  induction l with
  | nil =>
      intro r _ hr
      cases r with
      | nil => exact ⟨rfl, rfl⟩
      | cons c rs =>
          have := hr c rfl
          constructor
          · simp [List.takeWhile_cons, this]
          · simp [List.dropWhile_cons, this]
  | cons x xs ih =>
      intro r hl hr
      have hx : p x = true := hl x (List.mem_cons_self x xs)
      obtain ⟨ht, hd⟩ := ih r (fun c hc => hl c (List.mem_cons_of_mem x hc)) hr
      constructor
      · simp [List.takeWhile_cons, hx, ht]
      · simp [List.dropWhile_cons, hx, hd]

theorem takeWhile_nil_of_head (p : Char → Bool) (cs : List Char)
    (h : ∀ c, cs.head? = some c → p c = false) : cs.takeWhile p = [] := by
  cases cs with
  | nil => rfl
  | cons c rs => simp [List.takeWhile_cons, h c rfl]

theorem head_cons_not (p : Char → Bool) (c0 : Char) (X : List Char) (h : p c0 = false) :
    ∀ c, (c0 :: X).head? = some c → p c = false := by
  intro c hc
  simp only [List.head?_cons, Option.some.injEq] at hc
  rw [← hc]
  exact h

theorem head_nil_not (p : Char → Bool) :
    ∀ c, ([] : List Char).head? = some c → p c = false := by
  intro c hc
  simp at hc

theorem head_pad2_app_not (p : Char → Bool) (n : Nat) (X : List Char)
    (h : p (dg (n / 10)) = false) :
    ∀ c, (pad2 n ++ X).head? = some c → p c = false := by
  intro c hc
  simp only [pad2, List.cons_append, List.head?_cons, Option.some.injEq] at hc
  rw [← hc]
  exact h

theorem pad2_len (n : Nat) : (pad2 n).length = 2 := rfl

theorem pad4_len (n : Nat) : (pad4 n).length = 4 := rfl

theorem parse_lit (c : Char) (ts : List Tok) (cs : List Char) (st : PD) :
    parseToks (.lit c :: ts) (c :: cs) st = parseToks ts cs st := by
  simp [parseToks]

theorem parse_lit_ne (c c' : Char) (h : c' ≠ c) (ts : List Tok) (cs : List Char) (st : PD) :
    parseToks (.lit c :: ts) (c' :: cs) st = none := by
  simp [parseToks, h]

theorem parse_D (n : Nat) (h1 : 1 ≤ n) (h2 : n ≤ 31) (h3 : n < 100)
    (ts : List Tok) (rest : List Char) (st : PD)
    (hr : ∀ c, rest.head? = some c → c.isDigit = false) :
    parseToks (.D :: ts) (pad2 n ++ rest) st =
      parseToks ts rest { st with pdy := some n } := by
  obtain ⟨ht, hd⟩ := takeWhile_app (fun c => c.isDigit) (pad2 n) rest (pad2_digits n h3) hr
  simp [parseToks, ht, hd, digitsVal_pad2 n h3, h1, h2, pad2_len]

theorem parse_M (n : Nat) (h1 : 1 ≤ n) (h2 : n ≤ 12) (h3 : n < 100)
    (ts : List Tok) (rest : List Char) (st : PD)
    (hr : ∀ c, rest.head? = some c → c.isDigit = false) :
    parseToks (.M :: ts) (pad2 n ++ rest) st =
      parseToks ts rest { st with pm := some n } := by
  obtain ⟨ht, hd⟩ := takeWhile_app (fun c => c.isDigit) (pad2 n) rest (pad2_digits n h3) hr
  simp [parseToks, ht, hd, digitsVal_pad2 n h3, h1, h2, pad2_len]

theorem parse_M_fail_range (n : Nat) (h1 : 13 ≤ n) (h3 : n < 100)
    (ts : List Tok) (rest : List Char) (st : PD)
    (hr : ∀ c, rest.head? = some c → c.isDigit = false) :
    parseToks (.M :: ts) (pad2 n ++ rest) st = none := by
  obtain ⟨ht, hd⟩ := takeWhile_app (fun c => c.isDigit) (pad2 n) rest (pad2_digits n h3) hr
  simp [parseToks, ht, hd, digitsVal_pad2 n h3, pad2_len]
  omega

theorem parse_Y4 (y : Nat) (h1 : 1000 ≤ y) (h2 : y ≤ 9999)
    (ts : List Tok) (rest : List Char) (st : PD)
    (hr : ∀ c, rest.head? = some c → c.isDigit = false) :
    parseToks (.Y4 :: ts) (pad4 y ++ rest) st =
      parseToks ts rest { st with py := some y } := by
  obtain ⟨ht, hd⟩ := takeWhile_app (fun c => c.isDigit) (pad4 y) rest
    (pad4_digits y (by omega)) hr
  simp [parseToks, ht, hd, digitsVal_pad4 y (by omega), pad4_len]

theorem parse_Y4_fail_len2 (n : Nat) (h3 : n < 100)
    (ts : List Tok) (rest : List Char) (st : PD)
    (hr : ∀ c, rest.head? = some c → c.isDigit = false) :
    parseToks (.Y4 :: ts) (pad2 n ++ rest) st = none := by
  obtain ⟨ht, hd⟩ := takeWhile_app (fun c => c.isDigit) (pad2 n) rest (pad2_digits n h3) hr
  simp [parseToks, ht, hd, pad2_len]

theorem parse_Y2 (v : Nat) (h3 : v < 100)
    (ts : List Tok) (rest : List Char) (st : PD)
    (hr : ∀ c, rest.head? = some c → c.isDigit = false) :
    parseToks (.Y2 :: ts) (pad2 v ++ rest) st =
      parseToks ts rest { st with py := some (y2map v) } := by
  obtain ⟨ht, hd⟩ := takeWhile_app (fun c => c.isDigit) (pad2 v) rest (pad2_digits v h3) hr
  simp [parseToks, ht, hd, digitsVal_pad2 v h3, pad2_len]

theorem parse_D_fail_nodigit (ts : List Tok) (cs : List Char) (st : PD)
    (h : ∀ c, cs.head? = some c → c.isDigit = false) :
    parseToks (.D :: ts) cs st = none := by
  simp [parseToks, takeWhile_nil_of_head _ cs h]

theorem parse_M_fail_nodigit (ts : List Tok) (cs : List Char) (st : PD)
    (h : ∀ c, cs.head? = some c → c.isDigit = false) :
    parseToks (.M :: ts) cs st = none := by
  simp [parseToks, takeWhile_nil_of_head _ cs h]

theorem parse_Y4_fail_nodigit (ts : List Tok) (cs : List Char) (st : PD)
    (h : ∀ c, cs.head? = some c → c.isDigit = false) :
    parseToks (.Y4 :: ts) cs st = none := by
  simp [parseToks, takeWhile_nil_of_head _ cs h]

theorem parse_B_fail_noalpha (ts : List Tok) (cs : List Char) (st : PD)
    (h : ∀ c, cs.head? = some c → c.isAlpha = false) :
    parseToks (.B :: ts) cs st = none := by
  simp [parseToks, takeWhile_nil_of_head _ cs h, monthFromAbbrev]

theorem parse_B_aux (abbr : List Char) (m : Nat) (ts : List Tok) (rest : List Char)
    (st : PD) (hall : ∀ c ∈ abbr, c.isAlpha = true)
    (hmf : monthFromAbbrev (abbr.map Char.toLower) = some m)
    (hr : ∀ c, rest.head? = some c → c.isAlpha = false) :
    parseToks (.B :: ts) (abbr ++ rest) st =
      parseToks ts rest { st with pm := some m } := by
  obtain ⟨ht, hd⟩ := takeWhile_app (fun c => c.isAlpha) abbr rest hall hr
  simp [parseToks, ht, hd, hmf]

theorem parse_B (m : Nat) (h1 : 1 ≤ m) (h2 : m ≤ 12) (ts : List Tok) (rest : List Char)
    (st : PD) (hr : ∀ c, rest.head? = some c → c.isAlpha = false) :
    parseToks (.B :: ts) (monthAbbrev m ++ rest) st =
      parseToks ts rest { st with pm := some m } := by
  interval_cases m <;>
    exact parse_B_aux _ _ ts rest st (by decide) (by decide) hr

theorem parse_ws (ts : List Tok) (rest : List Char) (st : PD)
    (hr : ∀ c, rest.head? = some c → c.isWhitespace = false) :
    parseToks (.ws :: ts) (' ' :: rest) st = parseToks ts rest st := by
  obtain ⟨ht, hd⟩ := takeWhile_app (fun c => c.isWhitespace) [' '] rest (by decide) hr
  have ht' : (' ' :: rest).takeWhile (fun c => c.isWhitespace) = [' '] := by
    simpa using ht
  have hd' : (' ' :: rest).dropWhile (fun c => c.isWhitespace) = rest := by
    simpa using hd
  simp [parseToks, ht', hd']

theorem parse_end (st : PD) : parseToks [] [] st = some st := rfl

theorem daysInMonth_le31 (y m : Nat) : daysInMonth y m ≤ 31 := by
  simp only [daysInMonth]
  split_ifs <;> omega

theorem y2map_mod (y : Nat) (h1 : 1969 ≤ y) (h2 : y ≤ 2068) : y2map (y % 100) = y := by
  simp only [y2map]
  split_ifs with h <;> omega

theorem parse_Y4_end (y : Nat) (h1 : 1000 ≤ y) (h2 : y ≤ 9999) (st : PD) :
    parseToks [.Y4] (pad4 y) st = some { st with py := some y } := by
  have h := parse_Y4 y h1 h2 [] [] st (head_nil_not _)
  rw [List.append_nil] at h
  rw [h]
  rfl

theorem parse_D_end (n : Nat) (h1 : 1 ≤ n) (h2 : n ≤ 31) (h3 : n < 100) (st : PD) :
    parseToks [.D] (pad2 n) st = some { st with pdy := some n } := by
  have h := parse_D n h1 h2 h3 [] [] st (head_nil_not _)
  rw [List.append_nil] at h
  rw [h]
  rfl

theorem parse_Y2_end (v : Nat) (h3 : v < 100) (st : PD) :
    parseToks [.Y2] (pad2 v) st = some { st with py := some (y2map v) } := by
  have h := parse_Y2 v h3 [] [] st (head_nil_not _)
  rw [List.append_nil] at h
  rw [h]
  rfl

theorem parse_Y4_fail_len2_end (n : Nat) (h3 : n < 100) (ts : List Tok) (st : PD) :
    parseToks (.Y4 :: ts) (pad2 n) st = none := by
  have h := parse_Y4_fail_len2 n h3 ts [] st (head_nil_not _)
  rw [List.append_nil] at h
  exact h

theorem head_pad4_app_not (p : Char → Bool) (n : Nat) (X : List Char)
    (h : p (dg (n / 1000)) = false) :
    ∀ c, (pad4 n ++ X).head? = some c → p c = false := by
  intro c hc
  simp only [pad4, List.cons_append, List.head?_cons, Option.some.injEq] at hc
  rw [← hc]
  exact h

theorem head_pad4_not (p : Char → Bool) (n : Nat) (h : p (dg (n / 1000)) = false) :
    ∀ c, (pad4 n).head? = some c → p c = false := by
  intro c hc
  simp only [pad4, List.head?_cons, Option.some.injEq] at hc
  rw [← hc]
  exact h

theorem head_abbrev_app_not_digit (m : Nat) (h1 : 1 ≤ m) (h2 : m ≤ 12) (X : List Char) :
    ∀ c, (monthAbbrev m ++ X).head? = some c → c.isDigit = false := by
  interval_cases m <;> exact head_cons_not _ _ _ (by decide)

theorem head_abbrev_app_not_ws (m : Nat) (h1 : 1 ≤ m) (h2 : m ≤ 12) (X : List Char) :
    ∀ c, (monthAbbrev m ++ X).head? = some c → c.isWhitespace = false := by
  interval_cases m <;> exact head_cons_not _ _ _ (by decide)

theorem dropWhile_eq_self_of_head (p : Char → Bool) (l : List Char)
    (h : ∀ c, l.head? = some c → p c = false) : l.dropWhile p = l := by
  cases l with
  | nil => rfl
  | cons c rs => simp [List.dropWhile_cons, h c rfl]

theorem pyStrip_eq_self (l : List Char)
    (h1 : ∀ c, l.head? = some c → c.isWhitespace = false)
    (h2 : ∀ c, l.reverse.head? = some c → c.isWhitespace = false) :
    pyStrip l = l := by
  unfold pyStrip
  rw [dropWhile_eq_self_of_head _ _ h1, dropWhile_eq_self_of_head _ _ h2,
    List.reverse_reverse]

theorem reverse_head_app_pad2 (pre : List Char) (n : Nat) :
    (pre ++ pad2 n).reverse.head? = some (dg (n % 10)) := by
  simp [pad2, List.reverse_append]

theorem reverse_head_app_pad4 (pre : List Char) (n : Nat) :
    (pre ++ pad4 n).reverse.head? = some (dg (n % 10)) := by
  simp [pad4, List.reverse_append]

theorem strip_render (f : Fmt) (d : Date) (hv : validDateB d.year d.month d.day = true) :
    pyStrip (renderFmt f d) = renderFmt f d := by
  obtain ⟨hy1, hy2, hm1, hm2, hd1, hd2⟩ := of_decide_eq_true hv
  have hday : d.day < 100 := by
    have := daysInMonth_le31 d.year d.month
    omega
  cases f with
  | ymdDash =>
      apply pyStrip_eq_self
      · exact head_pad4_app_not _ _ _ (dg_not_ws _ (by omega))
      · intro c hc
        have hshape : renderFmt .ymdDash d =
            (pad4 d.year ++ '-' :: pad2 d.month ++ ['-']) ++ pad2 d.day := by
          simp [renderFmt, pad2, pad4]
        rw [hshape, reverse_head_app_pad2] at hc
        injection hc with hc
        rw [← hc]
        exact dg_not_ws _ (by omega)
  | dmySlash =>
      apply pyStrip_eq_self
      · exact head_pad2_app_not _ _ _ (dg_not_ws _ (by omega))
      · intro c hc
        have hshape : renderFmt .dmySlash d =
            (pad2 d.day ++ '/' :: pad2 d.month ++ ['/']) ++ pad4 d.year := by
          simp [renderFmt, pad2, pad4]
        rw [hshape, reverse_head_app_pad4] at hc
        injection hc with hc
        rw [← hc]
        exact dg_not_ws _ (by omega)
  | dmyDash =>
      apply pyStrip_eq_self
      · exact head_pad2_app_not _ _ _ (dg_not_ws _ (by omega))
      · intro c hc
        have hshape : renderFmt .dmyDash d =
            (pad2 d.day ++ '-' :: pad2 d.month ++ ['-']) ++ pad4 d.year := by
          simp [renderFmt, pad2, pad4]
        rw [hshape, reverse_head_app_pad4] at hc
        injection hc with hc
        rw [← hc]
        exact dg_not_ws _ (by omega)
  | mdySlash =>
      apply pyStrip_eq_self
      · exact head_pad2_app_not _ _ _ (dg_not_ws _ (by omega))
      · intro c hc
        have hshape : renderFmt .mdySlash d =
            (pad2 d.month ++ '/' :: pad2 d.day ++ ['/']) ++ pad4 d.year := by
          simp [renderFmt, pad2, pad4]
        rw [hshape, reverse_head_app_pad4] at hc
        injection hc with hc
        rw [← hc]
        exact dg_not_ws _ (by omega)
  | dmySlash2 =>
      apply pyStrip_eq_self
      · exact head_pad2_app_not _ _ _ (dg_not_ws _ (by omega))
      · intro c hc
        have hshape : renderFmt .dmySlash2 d =
            (pad2 d.day ++ '/' :: pad2 d.month ++ ['/']) ++ pad2 (d.year % 100) := by
          simp [renderFmt, pad2, pad4]
        rw [hshape, reverse_head_app_pad2] at hc
        injection hc with hc
        rw [← hc]
        exact dg_not_ws _ (by omega)
  | bdY =>
      apply pyStrip_eq_self
      · have hru : renderFmt .bdY d =
            monthAbbrev d.month ++ (' ' :: pad2 d.day ++ ' ' :: pad4 d.year) := by
          simp [renderFmt]
        rw [hru]
        exact head_abbrev_app_not_ws d.month hm1 hm2 _
      · intro c hc
        have hshape : renderFmt .bdY d =
            (monthAbbrev d.month ++ ' ' :: pad2 d.day ++ [' ']) ++ pad4 d.year := by
          simp [renderFmt, pad2, pad4]
        rw [hshape, reverse_head_app_pad4] at hc
        injection hc with hc
        rw [← hc]
        exact dg_not_ws _ (by omega)
  | dbY =>
      apply pyStrip_eq_self
      · exact head_pad2_app_not _ _ _ (dg_not_ws _ (by omega))
      · intro c hc
        have hshape : renderFmt .dbY d =
            (pad2 d.day ++ ' ' :: monthAbbrev d.month ++ [' ']) ++ pad4 d.year := by
          simp [renderFmt, pad2, pad4]
        rw [hshape, reverse_head_app_pad4] at hc
        injection hc with hc
        rw [← hc]
        exact dg_not_ws _ (by omega)

theorem render_nonempty (f : Fmt) (d : Date) : (renderFmt f d).isEmpty = false := by
  cases f <;> simp [renderFmt, pad2, pad4]

theorem rt_ymdDash (d : Date) (hv : validDateB d.year d.month d.day = true)
    (hy : 1000 ≤ d.year) :
    firstParse formats (renderFmt .ymdDash d) = some d := by
  obtain ⟨hy1, hy2, hm1, hm2, hd1, hd2⟩ := of_decide_eq_true hv
  have hday31 : d.day ≤ 31 := le_trans hd2 (daysInMonth_le31 d.year d.month)
  have e1 : strptimeF .ymdDash (renderFmt .ymdDash d) = some d := by
    simp only [strptimeF, toks]
    rw [show renderFmt .ymdDash d =
      pad4 d.year ++ '-' :: (pad2 d.month ++ '-' :: pad2 d.day) from by simp [renderFmt]]
    rw [parse_Y4 d.year hy hy2 _ _ _ (head_cons_not _ '-' _ (by decide)),
      parse_lit,
      parse_M d.month hm1 hm2 (by omega) _ _ _ (head_cons_not _ '-' _ (by decide)),
      parse_lit,
      parse_D_end d.day hd1 hday31 (by omega)]
    simp [hv]
  simp [formats, firstParse, e1]

theorem rt_dmySlash (d : Date) (hv : validDateB d.year d.month d.day = true)
    (hy : 1000 ≤ d.year) :
    firstParse formats (renderFmt .dmySlash d) = some d := by
  obtain ⟨hy1, hy2, hm1, hm2, hd1, hd2⟩ := of_decide_eq_true hv
  have hday31 : d.day ≤ 31 := le_trans hd2 (daysInMonth_le31 d.year d.month)
  have hshape : renderFmt .dmySlash d =
      pad2 d.day ++ '/' :: (pad2 d.month ++ '/' :: pad4 d.year) := by simp [renderFmt]
  have e1 : strptimeF .ymdDash (renderFmt .dmySlash d) = none := by
    simp only [strptimeF, toks]
    rw [hshape, parse_Y4_fail_len2 d.day (by omega) _ _ _
      (head_cons_not _ '/' _ (by decide))]
  have e2 : strptimeF .dmySlash (renderFmt .dmySlash d) = some d := by
    simp only [strptimeF, toks]
    rw [hshape,
      parse_D d.day hd1 hday31 (by omega) _ _ _ (head_cons_not _ '/' _ (by decide)),
      parse_lit,
      parse_M d.month hm1 hm2 (by omega) _ _ _ (head_cons_not _ '/' _ (by decide)),
      parse_lit,
      parse_Y4_end d.year hy hy2]
    simp [hv]
  simp [formats, firstParse, e1, e2]

theorem rt_dmyDash (d : Date) (hv : validDateB d.year d.month d.day = true)
    (hy : 1000 ≤ d.year) :
    firstParse formats (renderFmt .dmyDash d) = some d := by
  obtain ⟨hy1, hy2, hm1, hm2, hd1, hd2⟩ := of_decide_eq_true hv
  have hday31 : d.day ≤ 31 := le_trans hd2 (daysInMonth_le31 d.year d.month)
  have hshape : renderFmt .dmyDash d =
      pad2 d.day ++ '-' :: (pad2 d.month ++ '-' :: pad4 d.year) := by simp [renderFmt]
  have e1 : strptimeF .ymdDash (renderFmt .dmyDash d) = none := by
    simp only [strptimeF, toks]
    rw [hshape, parse_Y4_fail_len2 d.day (by omega) _ _ _
      (head_cons_not _ '-' _ (by decide))]
  have e2 : strptimeF .dmySlash (renderFmt .dmyDash d) = none := by
    simp only [strptimeF, toks]
    rw [hshape,
      parse_D d.day hd1 hday31 (by omega) _ _ _ (head_cons_not _ '-' _ (by decide)),
      parse_lit_ne '/' '-' (by decide)]
  have e3 : strptimeF .dmyDash (renderFmt .dmyDash d) = some d := by
    simp only [strptimeF, toks]
    rw [hshape,
      parse_D d.day hd1 hday31 (by omega) _ _ _ (head_cons_not _ '-' _ (by decide)),
      parse_lit,
      parse_M d.month hm1 hm2 (by omega) _ _ _ (head_cons_not _ '-' _ (by decide)),
      parse_lit,
      parse_Y4_end d.year hy hy2]
    simp [hv]
  simp [formats, firstParse, e1, e2, e3]

theorem rt_mdySlash (d : Date) (hv : validDateB d.year d.month d.day = true)
    (hy : 1000 ≤ d.year) (hU : 12 < d.day ∨ d.day = d.month) :
    firstParse formats (renderFmt .mdySlash d) = some d := by
  obtain ⟨dy, dm, dd⟩ := d
  simp only at hv hy hU ⊢
  obtain ⟨hy1, hy2, hm1, hm2, hd1, hd2⟩ := of_decide_eq_true hv
  have hday31 : dd ≤ 31 := le_trans hd2 (daysInMonth_le31 dy dm)
  have hshape : renderFmt .mdySlash ⟨dy, dm, dd⟩ =
      pad2 dm ++ '/' :: (pad2 dd ++ '/' :: pad4 dy) := by simp [renderFmt]
  have e1 : strptimeF .ymdDash (renderFmt .mdySlash ⟨dy, dm, dd⟩) = none := by
    simp only [strptimeF, toks]
    rw [hshape, parse_Y4_fail_len2 dm (by omega) _ _ _
      (head_cons_not _ '/' _ (by decide))]
  rcases hU with h12 | heq
  · have e2 : strptimeF .dmySlash (renderFmt .mdySlash ⟨dy, dm, dd⟩) = none := by
      simp only [strptimeF, toks]
      rw [hshape,
        parse_D dm hm1 (by omega) (by omega) _ _ _ (head_cons_not _ '/' _ (by decide)),
        parse_lit,
        parse_M_fail_range dd (by omega) (by omega) _ _ _
          (head_cons_not _ '/' _ (by decide))]
    have e3 : strptimeF .dmyDash (renderFmt .mdySlash ⟨dy, dm, dd⟩) = none := by
      simp only [strptimeF, toks]
      rw [hshape,
        parse_D dm hm1 (by omega) (by omega) _ _ _ (head_cons_not _ '/' _ (by decide)),
        parse_lit_ne '-' '/' (by decide)]
    have e4 : strptimeF .mdySlash (renderFmt .mdySlash ⟨dy, dm, dd⟩) =
        some ⟨dy, dm, dd⟩ := by
      simp only [strptimeF, toks]
      rw [hshape,
        parse_M dm hm1 hm2 (by omega) _ _ _ (head_cons_not _ '/' _ (by decide)),
        parse_lit,
        parse_D dd hd1 hday31 (by omega) _ _ _ (head_cons_not _ '/' _ (by decide)),
        parse_lit,
        parse_Y4_end dy hy hy2]
      simp [hv]
    simp [formats, firstParse, e1, e2, e3, e4]
  · subst heq
    have e2 : strptimeF .dmySlash (renderFmt .mdySlash ⟨dy, dd, dd⟩) =
        some ⟨dy, dd, dd⟩ := by
      simp only [strptimeF, toks]
      rw [hshape,
        parse_D dd hm1 (by omega) (by omega) _ _ _ (head_cons_not _ '/' _ (by decide)),
        parse_lit,
        parse_M dd hd1 (by omega) (by omega) _ _ _ (head_cons_not _ '/' _ (by decide)),
        parse_lit,
        parse_Y4_end dy hy hy2]
      simp [hv]
    simp [formats, firstParse, e1, e2]

theorem rt_dmySlash2 (d : Date) (hv : validDateB d.year d.month d.day = true)
    (hyw : 1969 ≤ d.year ∧ d.year ≤ 2068) :
    firstParse formats (renderFmt .dmySlash2 d) = some d := by
  obtain ⟨dy, dm, dd⟩ := d
  simp only at hv hyw ⊢
  obtain ⟨hy1, hy2, hm1, hm2, hd1, hd2⟩ := of_decide_eq_true hv
  obtain ⟨hw1, hw2⟩ := hyw
  have hday31 : dd ≤ 31 := le_trans hd2 (daysInMonth_le31 dy dm)
  have hshape : renderFmt .dmySlash2 ⟨dy, dm, dd⟩ =
      pad2 dd ++ '/' :: (pad2 dm ++ '/' :: pad2 (dy % 100)) := by simp [renderFmt]
  have e1 : strptimeF .ymdDash (renderFmt .dmySlash2 ⟨dy, dm, dd⟩) = none := by
    simp only [strptimeF, toks]
    rw [hshape, parse_Y4_fail_len2 dd (by omega) _ _ _
      (head_cons_not _ '/' _ (by decide))]
  have e2 : strptimeF .dmySlash (renderFmt .dmySlash2 ⟨dy, dm, dd⟩) = none := by
    simp only [strptimeF, toks]
    rw [hshape,
      parse_D dd hd1 hday31 (by omega) _ _ _ (head_cons_not _ '/' _ (by decide)),
      parse_lit,
      parse_M dm hm1 hm2 (by omega) _ _ _ (head_cons_not _ '/' _ (by decide)),
      parse_lit,
      parse_Y4_fail_len2_end (dy % 100) (by omega)]
  have e3 : strptimeF .dmyDash (renderFmt .dmySlash2 ⟨dy, dm, dd⟩) = none := by
    simp only [strptimeF, toks]
    rw [hshape,
      parse_D dd hd1 hday31 (by omega) _ _ _ (head_cons_not _ '/' _ (by decide)),
      parse_lit_ne '-' '/' (by decide)]
  have e4 : strptimeF .mdySlash (renderFmt .dmySlash2 ⟨dy, dm, dd⟩) = none := by
    simp only [strptimeF, toks]
    by_cases hcd : dd ≤ 12
    · rw [hshape,
        parse_M dd hd1 hcd (by omega) _ _ _ (head_cons_not _ '/' _ (by decide)),
        parse_lit,
        parse_D dm hm1 (by omega) (by omega) _ _ _ (head_cons_not _ '/' _ (by decide)),
        parse_lit,
        parse_Y4_fail_len2_end (dy % 100) (by omega)]
    · rw [hshape,
        parse_M_fail_range dd (by omega) (by omega) _ _ _
          (head_cons_not _ '/' _ (by decide))]
  have e5 : strptimeF .dmySlash2 (renderFmt .dmySlash2 ⟨dy, dm, dd⟩) =
      some ⟨dy, dm, dd⟩ := by
    simp only [strptimeF, toks]
    rw [hshape,
      parse_D dd hd1 hday31 (by omega) _ _ _ (head_cons_not _ '/' _ (by decide)),
      parse_lit,
      parse_M dm hm1 hm2 (by omega) _ _ _ (head_cons_not _ '/' _ (by decide)),
      parse_lit,
      parse_Y2_end (dy % 100) (by omega)]
    simp [y2map_mod dy hw1 hw2, hv]
  simp [formats, firstParse, e1, e2, e3, e4, e5]

theorem rt_bdY (d : Date) (hv : validDateB d.year d.month d.day = true)
    (hy : 1000 ≤ d.year) :
    firstParse formats (renderFmt .bdY d) = some d := by
  obtain ⟨hy1, hy2, hm1, hm2, hd1, hd2⟩ := of_decide_eq_true hv
  have hday31 : d.day ≤ 31 := le_trans hd2 (daysInMonth_le31 d.year d.month)
  have hshape : renderFmt .bdY d =
      monthAbbrev d.month ++ ' ' :: (pad2 d.day ++ ' ' :: pad4 d.year) := by
    simp [renderFmt]
  have hnd := head_abbrev_app_not_digit d.month hm1 hm2
    (' ' :: (pad2 d.day ++ ' ' :: pad4 d.year))
  have e1 : strptimeF .ymdDash (renderFmt .bdY d) = none := by
    simp only [strptimeF, toks]
    rw [hshape, parse_Y4_fail_nodigit _ _ _ hnd]
  have e2 : strptimeF .dmySlash (renderFmt .bdY d) = none := by
    simp only [strptimeF, toks]
    rw [hshape, parse_D_fail_nodigit _ _ _ hnd]
  have e3 : strptimeF .dmyDash (renderFmt .bdY d) = none := by
    simp only [strptimeF, toks]
    rw [hshape, parse_D_fail_nodigit _ _ _ hnd]
  have e4 : strptimeF .mdySlash (renderFmt .bdY d) = none := by
    simp only [strptimeF, toks]
    rw [hshape, parse_M_fail_nodigit _ _ _ hnd]
  have e5 : strptimeF .dmySlash2 (renderFmt .bdY d) = none := by
    simp only [strptimeF, toks]
    rw [hshape, parse_D_fail_nodigit _ _ _ hnd]
  have e6 : strptimeF .bdY (renderFmt .bdY d) = some d := by
    simp only [strptimeF, toks]
    rw [hshape,
      parse_B d.month hm1 hm2 _ _ _ (head_cons_not _ ' ' _ (by decide)),
      parse_ws _ _ _ (head_pad2_app_not _ _ _ (dg_not_ws _ (by omega))),
      parse_D d.day hd1 hday31 (by omega) _ _ _ (head_cons_not _ ' ' _ (by decide)),
      parse_ws _ _ _ (head_pad4_not _ _ (dg_not_ws _ (by omega))),
      parse_Y4_end d.year hy hy2]
    simp [hv]
  simp [formats, firstParse, e1, e2, e3, e4, e5, e6]

theorem rt_dbY (d : Date) (hv : validDateB d.year d.month d.day = true)
    (hy : 1000 ≤ d.year) :
    firstParse formats (renderFmt .dbY d) = some d := by
  obtain ⟨hy1, hy2, hm1, hm2, hd1, hd2⟩ := of_decide_eq_true hv
  have hday31 : d.day ≤ 31 := le_trans hd2 (daysInMonth_le31 d.year d.month)
  have hshape : renderFmt .dbY d =
      pad2 d.day ++ ' ' :: (monthAbbrev d.month ++ ' ' :: pad4 d.year) := by
    simp [renderFmt]
  have e1 : strptimeF .ymdDash (renderFmt .dbY d) = none := by
    simp only [strptimeF, toks]
    rw [hshape, parse_Y4_fail_len2 d.day (by omega) _ _ _
      (head_cons_not _ ' ' _ (by decide))]
  have e2 : strptimeF .dmySlash (renderFmt .dbY d) = none := by
    simp only [strptimeF, toks]
    rw [hshape,
      parse_D d.day hd1 hday31 (by omega) _ _ _ (head_cons_not _ ' ' _ (by decide)),
      parse_lit_ne '/' ' ' (by decide)]
  have e3 : strptimeF .dmyDash (renderFmt .dbY d) = none := by
    simp only [strptimeF, toks]
    rw [hshape,
      parse_D d.day hd1 hday31 (by omega) _ _ _ (head_cons_not _ ' ' _ (by decide)),
      parse_lit_ne '-' ' ' (by decide)]
  have e4 : strptimeF .mdySlash (renderFmt .dbY d) = none := by
    simp only [strptimeF, toks]
    by_cases hcd : d.day ≤ 12
    · rw [hshape,
        parse_M d.day hd1 hcd (by omega) _ _ _ (head_cons_not _ ' ' _ (by decide)),
        parse_lit_ne '/' ' ' (by decide)]
    · rw [hshape,
        parse_M_fail_range d.day (by omega) (by omega) _ _ _
          (head_cons_not _ ' ' _ (by decide))]
  have e5 : strptimeF .dmySlash2 (renderFmt .dbY d) = none := by
    simp only [strptimeF, toks]
    rw [hshape,
      parse_D d.day hd1 hday31 (by omega) _ _ _ (head_cons_not _ ' ' _ (by decide)),
      parse_lit_ne '/' ' ' (by decide)]
  have e6 : strptimeF .bdY (renderFmt .dbY d) = none := by
    simp only [strptimeF, toks]
    rw [hshape, parse_B_fail_noalpha _ _ _
      (head_pad2_app_not _ _ _ (dg_not_alpha _ (by omega)))]
  have e7 : strptimeF .dbY (renderFmt .dbY d) = some d := by
    simp only [strptimeF, toks]
    rw [hshape,
      parse_D d.day hd1 hday31 (by omega) _ _ _ (head_cons_not _ ' ' _ (by decide)),
      parse_ws _ _ _ (head_abbrev_app_not_ws d.month hm1 hm2 _),
      parse_B d.month hm1 hm2 _ _ _ (head_cons_not _ ' ' _ (by decide)),
      parse_ws _ _ _ (head_pad4_not _ _ (dg_not_ws _ (by omega))),
      parse_Y4_end d.year hy hy2]
    simp [hv]
  simp [formats, firstParse, e1, e2, e3, e4, e5, e6, e7]

/-- C5 counterexample: 2025-01-02 formatted with `%m/%d/%Y` is `"01/02/2025"`,
which `safe_parse_date` parses with the earlier `%d/%m/%Y` pattern as
February 1st, 2025 — the round trip does not return the original date. -/
theorem C5_counterexample :
    safe_parse_date (Value.str (String.mk (renderFmt .mdySlash ⟨2025, 1, 2⟩))) =
      some ⟨2025, 2, 1⟩ ∧
    validDateB 2025 1 2 = true ∧
    (⟨2025, 2, 1⟩ : Date) ≠ (⟨2025, 1, 2⟩ : Date) :=
  ⟨by decide, by decide, by decide⟩

/-- C5 (amended): for every valid calendar date with a four-digit year and
every supported pattern, formatting and reparsing with `safe_parse_date`
returns the original date, provided the formatted string is not captured by
an earlier-priority pattern: `%m/%d/%Y` requires day > 12 or day = month
(else `%d/%m/%Y` fires first with the fields swapped), and `%d/%m/%y`
requires the year to lie in strptime's two-digit pivot window 1969..2068. -/
theorem C5_roundtrip (d : Date) (f : Fmt)
    (hv : validDateB d.year d.month d.day = true)
    (hy : 1000 ≤ d.year)
    (hU : fmtUnambiguous f d) :
    safe_parse_date (Value.str (String.mk (renderFmt f d))) = some d := by
  have hs : (String.mk (renderFmt f d)).data = renderFmt f d := rfl
  simp only [safe_parse_date, hs]
  rw [strip_render f d hv]
  rw [if_neg (by rw [render_nonempty]; exact Bool.false_ne_true)]
  cases f with
  | ymdDash => exact rt_ymdDash d hv hy
  | dmySlash => exact rt_dmySlash d hv hy
  | dmyDash => exact rt_dmyDash d hv hy
  | mdySlash => exact rt_mdySlash d hv hy (by simpa [fmtUnambiguous] using hU)
  | dmySlash2 => exact rt_dmySlash2 d hv (by simpa [fmtUnambiguous] using hU)
  | bdY => exact rt_bdY d hv hy
  | dbY => exact rt_dbY d hv hy

/-- C5 witness: the ISO pattern round-trips 2025-03-16. -/
theorem C5_roundtrip_witness :
    validDateB 2025 3 16 = true ∧
    safe_parse_date (Value.str (String.mk (renderFmt .ymdDash ⟨2025, 3, 16⟩))) =
      some ⟨2025, 3, 16⟩ :=
  ⟨by decide, C5_roundtrip ⟨2025, 3, 16⟩ .ymdDash (by decide) (by decide)
    (by simp [fmtUnambiguous])⟩
